import Mathlib

/-!
Verification development for the GazeboOnline robot-simulation core.

The definitions below are shallow embeddings of the repository's source:
* `src/utils/cppParser.js` — `RobotCommandParser.parse` (free-text command scanner),
* `src/components/Editor.jsx` — `handleRun` (run sequencing, modelled as an event trace),
* `src/utils/physics.js` — `updateRoverPhysics` and `updateOccupancyMap`,
* `src/utils/kinematics.js` — `forwardKinematics` and `inverseKinematics`.

JavaScript numbers are modelled as real numbers; where the kinematics code can
produce IEEE `NaN` (out-of-domain `Math.acos`/`Math.sqrt`), numbers are modelled
as `Option ℝ` with `none` playing the role of `NaN` and all arithmetic
propagating it, matching IEEE semantics on the executions analysed here.
-/

/-! ## Command data model (`cppParser.js`)

`RobotCommandParser.parse` emits plain objects with a `type` tag; numeric
arguments come from `parseInt`/`parseFloat` on decimal literals and are
modelled exactly as rationals. -/

inductive Cmd
  | moveJoint (jointIndex : ℕ) (angle : ℚ)
  | closeGripper (maxEffort : Option ℚ)
  | openGripper
  | moveToPose (x y z : ℚ)
  | move (vx wz : ℚ)
  | getDistance
  | setLight (color : String)
deriving DecidableEq, Repr

/-- Scan-order rank of a command kind: the order of the seven regex scans in
`RobotCommandParser.parse` (moveJoint, closeGripper, openGripper, moveToPose,
move, getDistance, setLight). -/
def kindRank : Cmd → ℕ
  | .moveJoint _ _ => 0
  | .closeGripper _ => 1
  | .openGripper => 2
  | .moveToPose _ _ _ => 3
  | .move _ _ => 4
  | .getDistance => 5
  | .setLight _ => 6

/-! ### Character-level scanning primitives

Each JS regex in `parse` is deterministic enough that greedy character-level
matching is equivalent to the backtracking regex engine (argument lists are
digit/sign/dot literals whose followers are disjoint from the repeated
classes); the matchers below implement the regexes character by character. -/

/-- Match a literal prefix, returning the remainder (regex literal text). -/
def litM : List Char → List Char → Option (List Char)
  | [], s => some s
  | _ :: _, [] => none
  | c :: cs, d :: s => if d = c then litM cs s else none

/-- `\s*` — drop leading whitespace (JS `\s` modelled by `Char.isWhitespace`). -/
def wsDrop (s : List Char) : List Char := s.dropWhile Char.isWhitespace

/-- `\d+` — one or more decimal digits, returning them and the remainder. -/
def digits1 (s : List Char) : Option (List Char × List Char) :=
  let ds := s.takeWhile Char.isDigit
  if ds.isEmpty then none else some (ds, s.drop ds.length)

/-- Decimal digit string to a natural number (`parseInt(..., 10)` on `\d+`). -/
def digitsToNat (ds : List Char) : ℕ := ds.foldl (fun n c => 10 * n + (c.toNat - 48)) 0

/-- `-?\d+(?:\.\d+)?` — an optionally negative decimal literal, valued exactly
as a rational (`parseFloat` on the matched text). -/
def numLit (s : List Char) : Option (ℚ × List Char) :=
  let sgnrest : Bool × List Char :=
    match s with
    | '-' :: r => (true, r)
    | _ => (false, s)
  match digits1 sgnrest.2 with
  | none => none
  | some (ds, s2) =>
    let ip : ℚ := (digitsToNat ds : ℕ)
    match s2 with
    | '.' :: s3 =>
      match digits1 s3 with
      | some (fs, s4) =>
        some ((if sgnrest.1 then -1 else 1) * (ip + (digitsToNat fs : ℕ) / (10 : ℚ) ^ fs.length), s4)
      | none => some ((if sgnrest.1 then -1 else 1) * ip, s2)
    | _ => some ((if sgnrest.1 then -1 else 1) * ip, s2)

/-! ### Comment stripping

`parse` first runs `code.replace(/\/\/.*$/gm, '')` then
`code.replace(/\/\*[\s\S]*?\*\//g, '')`. The fuel argument (list length + 1)
only bounds recursion; every step consumes at least one character. -/

/-- Strip `//` line comments: delete from each `//` to the end of its line. -/
def stripLineComments : ℕ → List Char → List Char
  | 0, _ => []
  | _ + 1, [] => []
  | fuel + 1, '/' :: '/' :: rest =>
    stripLineComments fuel (rest.dropWhile (fun c => c != '\n'))
  | fuel + 1, c :: rest => c :: stripLineComments fuel rest

/-- Remainder after the first `*/` (the non-greedy `[\s\S]*?\*\/`), if any. -/
def afterBlockEnd : List Char → Option (List Char)
  | [] => none
  | '*' :: '/' :: rest => some rest
  | _ :: rest => afterBlockEnd rest

/-- Strip `/* ... */` block comments; an unclosed `/*` matches nothing and is
kept verbatim (no later `/* ... */` can close either). -/
def stripBlockComments : ℕ → List Char → List Char
  | 0, _ => []
  | _ + 1, [] => []
  | fuel + 1, '/' :: '*' :: rest =>
    match afterBlockEnd rest with
    | some rest2 => stripBlockComments fuel rest2
    | none => '/' :: '*' :: rest
  | fuel + 1, c :: rest => c :: stripBlockComments fuel rest

/-! ### Per-command matchers (anchored at the current position) -/

/-- `robot\.moveJoint\s*\(\s*(\d+)\s*,\s*(-?\d+(?:\.\d+)?)\s*\)` argument part. -/
def mjArgsM (s : List Char) : Option ((ℕ × ℚ) × List Char) :=
  match litM ("robot.moveJoint".toList) s with
  | none => none
  | some s1 =>
    match wsDrop s1 with
    | '(' :: s2 =>
      match digits1 (wsDrop s2) with
      | none => none
      | some (ds, s3) =>
        match wsDrop s3 with
        | ',' :: s4 =>
          match numLit (wsDrop s4) with
          | none => none
          | some (a, s5) =>
            match wsDrop s5 with
            | ')' :: s6 => some ((digitsToNat ds, a), s6)
            | _ => none
        | _ => none
    | _ => none

/-- moveJoint match: a command is emitted only for joint index 0..4; an invalid
index still consumes the match but emits nothing (silent drop). -/
def mjM (s : List Char) : Option (List Cmd × List Char) :=
  match mjArgsM s with
  | none => none
  | some ((j, a), r) => some ((if j ≤ 4 then [Cmd.moveJoint j a] else []), r)

/-- `robot\.closeGripper\s*\(\s*(-?\d+(?:\.\d+)?)?\s*\)` argument part. -/
def cgArgsM (s : List Char) : Option (Option ℚ × List Char) :=
  match litM ("robot.closeGripper".toList) s with
  | none => none
  | some s1 =>
    match wsDrop s1 with
    | '(' :: s2 =>
      match numLit (wsDrop s2) with
      | some (q, s3) =>
        match wsDrop s3 with
        | ')' :: s4 => some (some q, s4)
        | _ => none
      | none =>
        match wsDrop s2 with
        | ')' :: s4 => some (none, s4)
        | _ => none
    | _ => none

def cgM (s : List Char) : Option (List Cmd × List Char) :=
  (cgArgsM s).map (fun p => ([Cmd.closeGripper p.1], p.2))

/-- `robot\.openGripper\s*\(\s*\)`. -/
def ogArgsM (s : List Char) : Option (Unit × List Char) :=
  match litM ("robot.openGripper".toList) s with
  | none => none
  | some s1 =>
    match wsDrop s1 with
    | '(' :: s2 =>
      match wsDrop s2 with
      | ')' :: s3 => some ((), s3)
      | _ => none
    | _ => none

def ogM (s : List Char) : Option (List Cmd × List Char) :=
  (ogArgsM s).map (fun p => ([Cmd.openGripper], p.2))

/-- `robot\.moveToPose\s*\(\s*num\s*,\s*num\s*,\s*num\s*\)` argument part. -/
def mtpArgsM (s : List Char) : Option ((ℚ × ℚ × ℚ) × List Char) :=
  match litM ("robot.moveToPose".toList) s with
  | none => none
  | some s1 =>
    match wsDrop s1 with
    | '(' :: s2 =>
      match numLit (wsDrop s2) with
      | none => none
      | some (x, s3) =>
        match wsDrop s3 with
        | ',' :: s4 =>
          match numLit (wsDrop s4) with
          | none => none
          | some (y, s5) =>
            match wsDrop s5 with
            | ',' :: s6 =>
              match numLit (wsDrop s6) with
              | none => none
              | some (z, s7) =>
                match wsDrop s7 with
                | ')' :: s8 => some ((x, y, z), s8)
                | _ => none
            | _ => none
        | _ => none
    | _ => none

def mtpM (s : List Char) : Option (List Cmd × List Char) :=
  (mtpArgsM s).map (fun p => ([Cmd.moveToPose p.1.1 p.1.2.1 p.1.2.2], p.2))

/-- `robot\.move\s*\(\s*num\s*,\s*num\s*\)` argument part. -/
def mvArgsM (s : List Char) : Option ((ℚ × ℚ) × List Char) :=
  match litM ("robot.move".toList) s with
  | none => none
  | some s1 =>
    match wsDrop s1 with
    | '(' :: s2 =>
      match numLit (wsDrop s2) with
      | none => none
      | some (vx, s3) =>
        match wsDrop s3 with
        | ',' :: s4 =>
          match numLit (wsDrop s4) with
          | none => none
          | some (wz, s5) =>
            match wsDrop s5 with
            | ')' :: s6 => some ((vx, wz), s6)
            | _ => none
        | _ => none
    | _ => none

def mvM (s : List Char) : Option (List Cmd × List Char) :=
  (mvArgsM s).map (fun p => ([Cmd.move p.1.1 p.1.2], p.2))

/-- `robot\.getDistance\s*\(\s*\)`. -/
def gdArgsM (s : List Char) : Option (Unit × List Char) :=
  match litM ("robot.getDistance".toList) s with
  | none => none
  | some s1 =>
    match wsDrop s1 with
    | '(' :: s2 =>
      match wsDrop s2 with
      | ')' :: s3 => some ((), s3)
      | _ => none
    | _ => none

def gdM (s : List Char) : Option (List Cmd × List Char) :=
  (gdArgsM s).map (fun p => ([Cmd.getDistance], p.2))

/-! ### setLight: `robot\.setLight\s*\(\s*(["']?)([^"',)]+)\1\s*\)` plus the
numeric-to-hex colour conversion in the scan body. -/

/-- `[^"',)]+` — the colour token character class, taken greedily. -/
def slTok (s : List Char) : List Char :=
  s.takeWhile (fun c => !(c == '"' || c == '\'' || c == ',' || c == ')'))

/-- Quoted form: the backreference `\1` must repeat the opening quote. -/
def slQuoted (q : Char) (s : List Char) : Option (List Char × List Char) :=
  let tok := slTok s
  if tok.isEmpty then none else
  match s.drop tok.length with
  | c :: s2 =>
    if c = q then
      match wsDrop s2 with
      | ')' :: s3 => some (tok, s3)
      | _ => none
    else none
  | [] => none

/-- Bare-token form (empty group 1). -/
def slBare (s : List Char) : Option (List Char × List Char) :=
  let tok := slTok s
  if tok.isEmpty then none else
  match wsDrop (s.drop tok.length) with
  | ')' :: s2 => some (tok, s2)
  | _ => none

def slArgsM (s : List Char) : Option (List Char × List Char) :=
  match litM ("robot.setLight".toList) s with
  | none => none
  | some s1 =>
    match wsDrop s1 with
    | '(' :: s2 =>
      match wsDrop s2 with
      | '"' :: s3 => slQuoted '"' s3
      | '\'' :: s3 => slQuoted '\'' s3
      | s3 => slBare s3
    | _ => none

/-- `String.trim` on the captured token. -/
def trimChars (l : List Char) : List Char :=
  ((l.dropWhile Char.isWhitespace).reverse.dropWhile Char.isWhitespace).reverse

/-- `parseFloat` on the trimmed token: leading whitespace, optional sign, a
decimal form (`digits[.digits]` or `.digits`), optional exponent; `none` for
`NaN` (no parsable numeric prefix). `Infinity` literals are not modelled. -/
def jsExpApply (v : ℚ) (negExp : Bool) (ds : List Char) : ℚ :=
  if negExp then v / (10 : ℚ) ^ digitsToNat ds else v * (10 : ℚ) ^ digitsToNat ds

def jsExpTail (v : ℚ) (s : List Char) : ℚ :=
  match s with
  | '+' :: r =>
    (match digits1 r with
     | some (ds, _) => jsExpApply v false ds
     | none => v)
  | '-' :: r =>
    (match digits1 r with
     | some (ds, _) => jsExpApply v true ds
     | none => v)
  | _ =>
    (match digits1 s with
     | some (ds, _) => jsExpApply v false ds
     | none => v)

/-- Optional `e`/`E` exponent suffix of a JS numeric literal. -/
def jsExp (v : ℚ) (s : List Char) : ℚ :=
  match s with
  | 'e' :: rest => jsExpTail v rest
  | 'E' :: rest => jsExpTail v rest
  | _ => v

def jsParseFloat (l : List Char) : Option ℚ :=
  let l1 := l.dropWhile Char.isWhitespace
  let sgnrest : ℚ × List Char :=
    match l1 with
    | '-' :: r => (-1, r)
    | '+' :: r => (1, r)
    | _ => (1, l1)
  match digits1 sgnrest.2 with
  | some (ds, r1) =>
    let ip : ℚ := (digitsToNat ds : ℕ)
    match r1 with
    | '.' :: r2 =>
      (match digits1 r2 with
       | some (fs, r3) =>
         some (sgnrest.1 * jsExp (ip + (digitsToNat fs : ℕ) / (10 : ℚ) ^ fs.length) r3)
       | none => some (sgnrest.1 * jsExp ip r2))
    | _ => some (sgnrest.1 * jsExp ip r1)
  | none =>
    match sgnrest.2 with
    | '.' :: r2 =>
      (match digits1 r2 with
       | some (fs, r3) =>
         some (sgnrest.1 * jsExp ((digitsToNat fs : ℕ) / (10 : ℚ) ^ fs.length) r3)
       | none => none)
    | _ => none

/-- `Math.floor(n).toString(16)` (lowercase hex, `-` sign for negatives). -/
def intHexDigits (i : ℤ) : List Char :=
  if i < 0 then '-' :: Nat.toDigits 16 (-i).toNat else Nat.toDigits 16 i.toNat

/-- `.padStart(6, '0')`. -/
def padStart6 (l : List Char) : List Char := List.replicate (6 - l.length) '0' ++ l

/-- The setLight colour post-processing: trim, and if the token parses as a
number convert it to `'#' + floor.toString(16).padStart(6,'0')`. -/
def jsColorToken (tok : List Char) : List Char :=
  let c := trimChars tok
  match jsParseFloat c with
  | some q => '#' :: padStart6 (intHexDigits ⌊q⌋)
  | none => c

def slM (s : List Char) : Option (List Cmd × List Char) :=
  (slArgsM s).map (fun p => ([Cmd.setLight (String.mk (jsColorToken p.1))], p.2))

/-! ### The scan loop and `parse` -/

/-- One `while ((match = regex.exec(code)) !== null)` loop: try the anchored
matcher at each position left to right; on a match, continue after it
(`lastIndex` advances past the match). Fuel is the string length; every step
consumes at least one character. -/
def scanKind (f : List Char → Option (List Cmd × List Char)) : ℕ → List Char → List Cmd
  | 0, _ => []
  | _ + 1, [] => []
  | fuel + 1, c :: rest =>
    match f (c :: rest) with
    | some (cs, rest2) => cs ++ scanKind f fuel rest2
    | none => scanKind f fuel rest

/-- `RobotCommandParser.parse`: strip comments, then run the seven independent
scans in source order and concatenate their results. -/
def parseCommands (code : List Char) : List Cmd :=
  let c1 := stripLineComments (code.length + 1) code
  let c2 := stripBlockComments (c1.length + 1) c1
  let n := c2.length + 1
  scanKind mjM n c2 ++ scanKind cgM n c2 ++ scanKind ogM n c2 ++ scanKind mtpM n c2 ++
    scanKind mvM n c2 ++ scanKind gdM n c2 ++ scanKind slM n c2

/-! ## `handleRun` (Editor.jsx), as an event trace

`handleRun` parses the editor text; with zero commands it alerts and returns
early, otherwise it resets the robot, waits 500 ms, and executes the
commands sequentially. -/

inductive RunEvent
  | alerted
  | resetRobot
  | settle (ms : ℕ)
  | executed (cmds : List Cmd)
deriving DecidableEq, Repr

def handleRun (code : List Char) : List RunEvent :=
  let commands := parseCommands code
  if commands.length = 0 then [RunEvent.alerted]
  else [RunEvent.resetRobot, RunEvent.settle 500, RunEvent.executed commands]

/-! ## Rover physics (`physics.js`, `robotStore.js`)

`updateRoverPhysics(robotStore, deltaTime)` reads the zustand store state,
applies the watchdog, friction, and pose integration, and writes back through
`setVelocity`/`setRotation`/`setPosition`. The store slice it touches is
modelled by `RoverStore`; `Date.now()` at the tick is the parameter `now`
(the store's own `Date.now()` inside `setVelocity` happens during the same
tick and is identified with it). -/

inductive RobotType
  | arm
  | rover
deriving DecidableEq

structure RoverStore where
  robotType : RobotType
  posX : ℝ
  posY : ℝ
  posZ : ℝ
  rotation : ℝ
  vx : ℝ
  wz : ℝ
  lastCommandTime : Option ℝ

/-- `robotStore.setVelocity(vx, wz)`: writes the velocity and stamps
`lastCommandTime: Date.now()`. -/
def rsSetVelocity (s : RoverStore) (vx wz now : ℝ) : RoverStore :=
  { s with vx := vx, wz := wz, lastCommandTime := some now }

/-- `robotStore.setPosition(x, y, z)`. -/
def rsSetPosition (s : RoverStore) (x y z : ℝ) : RoverStore :=
  { s with posX := x, posY := y, posZ := z }

/-- `robotStore.setRotation(y)`. -/
def rsSetRotation (s : RoverStore) (r : ℝ) : RoverStore :=
  { s with rotation := r }

/-- The guard `lastCommandTime && (now - lastCommandTime) > WATCHDOG_TIMEOUT`:
a `null` (or JS-falsy `0`) timestamp never triggers it. -/
def watchdogExpired (lct : Option ℝ) (now : ℝ) : Prop :=
  match lct with
  | none => False
  | some t => t ≠ 0 ∧ now - t > 500

/-- `Math.pow(FRICTION_COEFFICIENT, deltaTime * 60)` with
`FRICTION_COEFFICIENT = 0.95`. -/
noncomputable def frictionFactor (deltaTime : ℝ) : ℝ :=
  (0.95 : ℝ) ^ (deltaTime * 60)

/-- `if (Math.abs(v) < 0.01) v = 0` — snap small components to exactly zero. -/
noncomputable def snapSmall (v : ℝ) : ℝ := if |v| < 0.01 then 0 else v

open Classical in
/-- The local `vx` after the watchdog block (0 if the watchdog fired). -/
noncomputable def postWatchdogVx (s : RoverStore) (now : ℝ) : ℝ :=
  if watchdogExpired s.lastCommandTime now then 0 else s.vx

open Classical in
noncomputable def postWatchdogWz (s : RoverStore) (now : ℝ) : ℝ :=
  if watchdogExpired s.lastCommandTime now then 0 else s.wz

open Classical in
/-- The local `vx` after the friction block: decayed and snapped when the
block ran (`vx !== 0 || wz !== 0`), unchanged (necessarily 0) otherwise. -/
noncomputable def postFrictionVx (s : RoverStore) (now deltaTime : ℝ) : ℝ :=
  if postWatchdogVx s now ≠ 0 ∨ postWatchdogWz s now ≠ 0 then
    snapSmall (postWatchdogVx s now * frictionFactor deltaTime)
  else postWatchdogVx s now

open Classical in
noncomputable def postFrictionWz (s : RoverStore) (now deltaTime : ℝ) : ℝ :=
  if postWatchdogVx s now ≠ 0 ∨ postWatchdogWz s now ≠ 0 then
    snapSmall (postWatchdogWz s now * frictionFactor deltaTime)
  else postWatchdogWz s now

open Classical in
/-- `updateRoverPhysics`: watchdog, friction, then heading and position
integration. The JS function destructures `position` and `rotation` up front,
so the position update uses the rotation read *before* `setRotation` ran. -/
noncomputable def updateRoverPhysics (s : RoverStore) (now deltaTime : ℝ) : RoverStore :=
  if s.robotType = RobotType.rover then
    let wd := watchdogExpired s.lastCommandTime now
    let vx1 := postWatchdogVx s now
    let wz1 := postWatchdogWz s now
    let s1 := if wd then rsSetVelocity s 0 0 now else s
    let vx2 := postFrictionVx s now deltaTime
    let wz2 := postFrictionWz s now deltaTime
    let s2 := if vx1 ≠ 0 ∨ wz1 ≠ 0 then rsSetVelocity s1 vx2 wz2 now else s1
    let s3 := if wz2 ≠ 0 then rsSetRotation s2 (s.rotation + wz2 * deltaTime) else s2
    if vx2 ≠ 0 then
      rsSetPosition s3 (s.posX + vx2 * Real.sin s.rotation * deltaTime) s.posY
        (s.posZ + vx2 * Real.cos s.rotation * deltaTime)
    else s3
  else s

/-- A sequence of physics ticks with per-tick wall-clock times `nowSeq` and a
fixed frame time `dt`, with no intervening commands. -/
noncomputable def physTicks (s0 : RoverStore) (nowSeq : ℕ → ℝ) (dt : ℝ) : ℕ → RoverStore
  | 0 => s0
  | n + 1 => updateRoverPhysics (physTicks s0 nowSeq dt n) (nowSeq n) dt

/-! ## Occupancy-grid fusion (`physics.js` `updateOccupancyMap`)

Cell codes follow the source: 0 = unknown, 1 = free, 2 = occupied. The grid is
a flat row-major list of `gridSize * gridSize` cells. -/

structure ScanPoint where
  angle : ℝ
  distance : ℝ

open Classical in
/-- One step of the free-space loop: floor the along-ray sample into grid
coordinates and, if in bounds, mark the cell free unless it is occupied
(`if (map[idx] !== 2) map[idx] = 1`). -/
noncomputable def markFreeStep (gridSize : ℕ) (cellSize robotX robotZ angle : ℝ)
    (m : List ℕ) (step : ℕ) : List ℕ :=
  let mapCenterX : ℝ := (gridSize : ℝ) / 2
  let mapCenterZ : ℝ := (gridSize : ℝ) / 2
  let stepX : ℤ := ⌊mapCenterX + (robotX + Real.sin angle * step * cellSize) / cellSize⌋
  let stepZ : ℤ := ⌊mapCenterZ + (robotZ + Real.cos angle * step * cellSize) / cellSize⌋
  if 0 ≤ stepX ∧ stepX < (gridSize : ℤ) ∧ 0 ≤ stepZ ∧ stepZ < (gridSize : ℤ) then
    let idx := (stepZ * gridSize + stepX).toNat
    if m[idx]? ≠ some 2 then m.set idx 1 else m
  else m

open Classical in
/-- Fuse one lidar ray: mark `Math.floor(distance / cellSize)` cells along the
ray free, then mark the terminal cell occupied when the hit is below 95% of
`DISTANCE_SENSOR_RANGE` (5.0 m). -/
noncomputable def markRay (gridSize : ℕ) (cellSize robotX robotZ : ℝ)
    (m : List ℕ) (p : ScanPoint) : List ℕ :=
  let mapCenterX : ℝ := (gridSize : ℝ) / 2
  let mapCenterZ : ℝ := (gridSize : ℝ) / 2
  let obstacleX := robotX + Real.sin p.angle * p.distance
  let obstacleZ := robotZ + Real.cos p.angle * p.distance
  let gridX : ℤ := ⌊mapCenterX + obstacleX / cellSize⌋
  let gridZ : ℤ := ⌊mapCenterZ + obstacleZ / cellSize⌋
  let steps : ℤ := ⌊p.distance / cellSize⌋
  let m1 := (List.range steps.toNat).foldl
    (markFreeStep gridSize cellSize robotX robotZ p.angle) m
  if 0 ≤ gridX ∧ gridX < (gridSize : ℤ) ∧ 0 ≤ gridZ ∧ gridZ < (gridSize : ℤ) then
    if p.distance < 5.0 * 0.95 then m1.set (gridZ * gridSize + gridX).toNat 2 else m1
  else m1

/-- `updateOccupancyMap(robotStore, lidarScan, robotPosition, mapSize, resolution)`:
lazily (re)allocate an all-unknown grid when absent or mis-sized, then fuse
every scan ray in order. -/
noncomputable def updateOccupancyMap (prev : Option (List ℕ)) (lidarScan : List ScanPoint)
    (robotX robotZ : ℝ) (mapSize resolution : ℕ) : List ℕ :=
  let gridSize := mapSize * resolution
  let cellSize : ℝ := (mapSize : ℝ) / (gridSize : ℝ)
  let m0 :=
    match prev with
    | none => List.replicate (gridSize * gridSize) 0
    | some l =>
      if l.length ≠ gridSize * gridSize then List.replicate (gridSize * gridSize) 0 else l
  lidarScan.foldl (markRay gridSize cellSize robotX robotZ) m0

/-- A sequence of fusion updates (scan, robot x, robot z) at a fixed map size
and resolution, starting from grid `l`. -/
noncomputable def fuseScans (mapSize resolution : ℕ) (l : List ℕ)
    (updates : List (List ScanPoint × ℝ × ℝ)) : List ℕ :=
  updates.foldl (fun m u => updateOccupancyMap (some m) u.1 u.2.1 u.2.2 mapSize resolution) l

/-! ## Kinematics (`kinematics.js`)

JS numbers here are `Option ℝ`: `none` models IEEE `NaN`, produced by
`Math.acos`/`Math.sqrt` outside their domains and propagated by arithmetic
and by `Math.min`/`Math.max`. Division by zero (JS `Infinity`) is also mapped
to `none`; no execution analysed below divides by zero. -/

abbrev JReal := Option ℝ

def jadd : JReal → JReal → JReal
  | some a, some b => some (a + b)
  | _, _ => none

def jsub : JReal → JReal → JReal
  | some a, some b => some (a - b)
  | _, _ => none

def jmul : JReal → JReal → JReal
  | some a, some b => some (a * b)
  | _, _ => none

/-- `x / 2` (used by the halved link contributions in `forwardKinematics`). -/
noncomputable def jhalf : JReal → JReal
  | some a => some (a / 2)
  | none => none

def jneg : JReal → JReal
  | some a => some (-a)
  | none => none

open Classical in
noncomputable def jdiv : JReal → JReal → JReal
  | some a, some b => if b = 0 then none else some (a / b)
  | _, _ => none

noncomputable def jsin : JReal → JReal
  | some a => some (Real.sin a)
  | none => none

noncomputable def jcos : JReal → JReal
  | some a => some (Real.cos a)
  | none => none

open Classical in
/-- `Math.sqrt`: `NaN` on negative arguments. -/
noncomputable def jsqrt : JReal → JReal
  | some a => if a < 0 then none else some (Real.sqrt a)
  | none => none

open Classical in
/-- `Math.acos`: `NaN` outside `[-1, 1]`. -/
noncomputable def jacos : JReal → JReal
  | some a => if |a| ≤ 1 then some (Real.arccos a) else none
  | none => none

/-- `Math.atan2(y, x)`, via the complex argument (`atan2(0,0) = 0` as in JS). -/
noncomputable def jatan2 : JReal → JReal → JReal
  | some yv, some xv => some (Complex.arg ⟨xv, yv⟩)
  | _, _ => none

/-- `Math.min` (NaN-propagating). -/
noncomputable def jmin : JReal → JReal → JReal
  | some a, some b => some (min a b)
  | _, _ => none

/-- `Math.max` (NaN-propagating). -/
noncomputable def jmax : JReal → JReal → JReal
  | some a, some b => some (max a b)
  | _, _ => none

/-- `THREE.MathUtils.clamp(v, lo, hi) = Math.max(lo, Math.min(hi, v))`. -/
noncomputable def jclamp (v : JReal) (lo hi : ℝ) : JReal := jmax (some lo) (jmin (some hi) v)

/-- `THREE.MathUtils.degToRad`. -/
noncomputable def degToRadJ (v : JReal) : JReal := jmul v (some (Real.pi / 180))

/-- `THREE.MathUtils.radToDeg`. -/
noncomputable def radToDegJ (v : JReal) : JReal := jmul v (some (180 / Real.pi))

/-- JS truthiness of a number: false for `0` and `NaN`. -/
def jTruthy : JReal → Prop
  | none => False
  | some v => v ≠ 0

/-- `v < t` as JS evaluates it: false when `v` is `NaN`. -/
def jltR (v : JReal) (t : ℝ) : Prop := ∃ x, v = some x ∧ x < t

/-- `v > t` as JS evaluates it: false when `v` is `NaN`. -/
def jgtR (v : JReal) (t : ℝ) : Prop := ∃ x, v = some x ∧ t < x

/-- A 5-tuple of joint angles (JS arrays of length 5 in the source). -/
structure Angles where
  a0 : JReal
  a1 : JReal
  a2 : JReal
  a3 : JReal
  a4 : JReal

def Angles.map (f : JReal → JReal) (a : Angles) : Angles :=
  ⟨f a.a0, f a.a1, f a.a2, f a.a3, f a.a4⟩

/-- `THREE.Vector3` with JS-number components. -/
structure JVec where
  x : JReal
  y : JReal
  z : JReal

/-- `Vector3.length()`. -/
noncomputable def jlen (v : JVec) : JReal :=
  jsqrt (jadd (jadd (jmul v.x v.x) (jmul v.y v.y)) (jmul v.z v.z))

/-- `Vector3.distanceTo`. -/
noncomputable def jdistTo (a b : JVec) : JReal :=
  jsqrt (jadd (jadd (jmul (jsub a.x b.x) (jsub a.x b.x)) (jmul (jsub a.y b.y) (jsub a.y b.y)))
    (jmul (jsub a.z b.z) (jsub a.z b.z)))

/-- `Vector3.multiplyScalar`. -/
def jscale (v : JVec) (s : JReal) : JVec := ⟨jmul v.x s, jmul v.y s, jmul v.z s⟩

/-- Link lengths (meters), matching `RobotModel.jsx`. -/
noncomputable def armL0 : ℝ := 0.3

noncomputable def armL1 : ℝ := 0.8

noncomputable def armL2 : ℝ := 0.7

noncomputable def armL3 : ℝ := 0.3

noncomputable def armL4 : ℝ := 0.15

/-- `forwardKinematics(jointAngles)`: degrees in, end-effector position out.
The chain accumulates each link's half-contribution twice (as in the source)
and applies the base rotation last. -/
noncomputable def forwardKinematics (jointAngles : Angles) : JVec :=
  let a := jointAngles.map degToRadJ
  let baseRot := a.a0
  let shoulder := a.a1
  let elbow := a.a2
  let wrist := a.a3
  let y0 : JReal := some (armL0 / 2)
  let _z0 : JReal := some 0  -- z0 in the source; unused there as well
  let y1 := jadd y0 (jhalf (jmul (some armL1) (jcos shoulder)))
  let z1 := jhalf (jmul (some armL1) (jsin shoulder))
  let y2 := jadd (jadd y1 (jhalf (jmul (some armL1) (jcos shoulder))))
    (jhalf (jmul (some armL2) (jcos (jadd shoulder elbow))))
  let z2 := jadd (jadd z1 (jhalf (jmul (some armL1) (jsin shoulder))))
    (jhalf (jmul (some armL2) (jsin (jadd shoulder elbow))))
  let y3 := jadd (jadd y2 (jhalf (jmul (some armL2) (jcos (jadd shoulder elbow)))))
    (jhalf (jmul (some armL3) (jcos (jadd (jadd shoulder elbow) wrist))))
  let z3 := jadd (jadd z2 (jhalf (jmul (some armL2) (jsin (jadd shoulder elbow)))))
    (jhalf (jmul (some armL3) (jsin (jadd (jadd shoulder elbow) wrist))))
  let y4 := jadd (jadd y3 (jhalf (jmul (some armL3) (jcos (jadd (jadd shoulder elbow) wrist)))))
    (jmul (some armL4) (jcos (jadd (jadd shoulder elbow) wrist)))
  let z4 := jadd (jadd z3 (jhalf (jmul (some armL3) (jsin (jadd (jadd shoulder elbow) wrist)))))
    (jmul (some armL4) (jsin (jadd (jadd shoulder elbow) wrist)))
  let x4 : JReal := some 0
  ⟨jsub (jmul x4 (jcos baseRot)) (jmul z4 (jsin baseRot)),
   y4,
   jadd (jmul x4 (jsin baseRot)) (jmul z4 (jcos baseRot))⟩

open Classical in
/-- One CCD iteration body of `inverseKinematics` (source lines 101–141): the
state is `(angles/*radians*/, currentAngles/*degrees*/)`. -/
noncomputable def ikStep (targetPos : JVec) (st : Angles × Angles) : Angles × Angles :=
  let cur := st.2
  let a0 := jatan2 targetPos.x targetPos.z
  let _targX := jsub (jmul targetPos.x (jcos (jneg a0))) (jmul targetPos.z (jsin (jneg a0)))  -- targetX in the source; unused there as well
  let targY := jsub targetPos.y (some (armL0 / 2))
  let targZ := jadd (jmul targetPos.x (jsin (jneg a0))) (jmul targetPos.z (jcos (jneg a0)))
  let targetDist := jsqrt (jadd (jmul targY targY) (jmul targZ targZ))
  let targetDist2D := jsub targetDist (some armL4)
  let cosElbow := jdiv
    (jsub (jadd (jmul (some armL1) (some armL1)) (jmul (some armL2) (some armL2)))
      (jmul targetDist2D targetDist2D))
    (some (2 * armL1 * armL2))
  let elbowAngle := jacos (jmax (some (-1)) (jmin (some 1) cosElbow))
  let alpha := jatan2 targZ targY
  let beta := jacos (jdiv
    (jsub (jadd (jmul (some armL1) (some armL1)) (jmul targetDist2D targetDist2D))
      (jmul (some armL2) (some armL2)))
    (jmul (some (2 * armL1)) targetDist2D))
  let shoulderAngle := jsub alpha beta
  let wristAngle := jsub (jneg shoulderAngle) elbowAngle
  let a4 := if jTruthy cur.a4 then degToRadJ cur.a4 else some 0
  let na : Angles := ⟨a0, shoulderAngle, elbowAngle, wristAngle, a4⟩
  (na, na.map radToDegJ)

open Classical in
/-- The bounded CCD loop: each entry recomputes forward kinematics from the
previous degree estimate (the source's unit-mixing `radToDeg(currentAngles)`
included) and breaks when the error is below tolerance. -/
noncomputable def ikIter (targetPos : JVec) (tolerance : ℝ) :
    ℕ → Angles × Angles → Angles × Angles
  | 0, st => st
  | n + 1, st =>
    let currentPos := forwardKinematics (st.2.map radToDegJ)
    let error := jdistTo currentPos targetPos
    if jltR error tolerance then st
    else ikIter targetPos tolerance n (ikStep targetPos st)

open Classical in
/-- `inverseKinematics(targetPos, currentAngles, maxIterations, tolerance)`:
radially clamp an out-of-reach target, run the CCD loop, convert to degrees
and clamp per joint. -/
noncomputable def inverseKinematics (targetPos0 : JVec) (currentAngles : Angles)
    (maxIterations : ℕ) (tolerance : ℝ) : Angles :=
  let totalReach := armL1 + armL2 + armL3 + armL4
  let distance := jlen targetPos0
  let targetPos :=
    if jgtR distance totalReach then jscale targetPos0 (jdiv (some totalReach) distance)
    else targetPos0
  let angles0 := currentAngles.map degToRadJ
  let st := ikIter targetPos tolerance maxIterations (angles0, currentAngles)
  let finalAngles := st.1.map radToDegJ
  ⟨jclamp finalAngles.a0 (-180) 180,
   jclamp finalAngles.a1 (-90) 90,
   jclamp finalAngles.a2 (-150) 150,
   jclamp finalAngles.a3 (-90) 90,
   jclamp finalAngles.a4 (-180) 180⟩

/-- The all-zero joint configuration (initial `jointAngles` in the store and
the solver's default `currentAngles`). -/
def anglesZero : Angles := ⟨some 0, some 0, some 0, some 0, some 0⟩

/-! ### Position-instrumented scanning

`scanKindPos` is `scanKind` additionally recording, for every emitted
command, the start position of its match in the scanned text: `pos` is the
index of the current suffix's head, advanced past each match by the number of
characters the match consumed and by one character after each failed
position, exactly as `regex.exec`'s `lastIndex` walks the string. -/

def scanKindPos (f : List Char → Option (List Cmd × List Char)) :
    ℕ → ℕ → List Char → List (ℕ × Cmd)
  | 0, _, _ => []
  | _ + 1, _, [] => []
  | fuel + 1, pos, c :: rest =>
    match f (c :: rest) with
    | some (cs, rest2) =>
      cs.map (fun cmd => (pos, cmd)) ++
        scanKindPos f fuel (pos + ((c :: rest).length - rest2.length)) rest2
    | none => scanKindPos f fuel (pos + 1) rest

/-- The comment-stripped text that `parse` scans (the two `replace` calls). -/
def stripAll (code : List Char) : List Char :=
  stripBlockComments ((stripLineComments (code.length + 1) code).length + 1)
    (stripLineComments (code.length + 1) code)

/-- One kind's scan of the comment-stripped text, with match positions. -/
def parsePosScan (f : List Char → Option (List Cmd × List Char))
    (code : List Char) : List (ℕ × Cmd) :=
  scanKindPos f ((stripAll code).length + 1) 0 (stripAll code)

/-- Concrete rover states used in the claim instances below. -/
noncomputable def c3Store : RoverStore :=
  { robotType := RobotType.rover, posX := 0, posY := 0.1, posZ := 0, rotation := 0,
    vx := 1, wz := 0.5, lastCommandTime := some 100 }

noncomputable def c4Store : RoverStore :=
  { robotType := RobotType.rover, posX := 0, posY := 0.1, posZ := 0, rotation := 0,
    vx := 1, wz := 0, lastCommandTime := none }

noncomputable def c5WdStore : RoverStore :=
  { robotType := RobotType.rover, posX := 0, posY := 0.1, posZ := 0, rotation := 0,
    vx := 1, wz := 0, lastCommandTime := some 100 }

noncomputable def c6Store : RoverStore :=
  { robotType := RobotType.rover, posX := 0, posY := 0.1, posZ := 0, rotation := 0,
    vx := 1, wz := Real.pi / 2, lastCommandTime := none }

/-! ## Theorems

### Parser lemmas -/

theorem mjM_emits {s : List Char} {cs : List Cmd} {r : List Char}
    (h : mjM s = some (cs, r)) : ∀ c ∈ cs, ∃ j a, j ≤ 4 ∧ c = Cmd.moveJoint j a := by
  intro c hc
  unfold mjM at h
  rcases hm : mjArgsM s with - | ⟨⟨j, a⟩, r'⟩ <;> rw [hm] at h
  · exact absurd h (by simp)
  · simp only [Option.some.injEq, Prod.mk.injEq] at h
    obtain ⟨hcs, -⟩ := h
    subst hcs
    by_cases hj : j ≤ 4 <;> simp [hj] at hc
    exact ⟨j, a, hj, hc⟩

theorem mjM_rank {s : List Char} {cs : List Cmd} {r : List Char}
    (h : mjM s = some (cs, r)) : ∀ c ∈ cs, kindRank c = 0 := by
  intro c hc
  obtain ⟨j, a, -, hc'⟩ := mjM_emits h c hc
  subst hc'
  rfl

theorem cgM_rank {s : List Char} {cs : List Cmd} {r : List Char}
    (h : cgM s = some (cs, r)) : ∀ c ∈ cs, kindRank c = 1 := by
  intro c hc
  unfold cgM at h
  rcases hm : cgArgsM s with - | ⟨q, r'⟩ <;> rw [hm] at h <;> simp at h
  obtain ⟨hcs, -⟩ := h
  subst hcs
  simp at hc
  subst hc
  rfl

theorem ogM_rank {s : List Char} {cs : List Cmd} {r : List Char}
    (h : ogM s = some (cs, r)) : ∀ c ∈ cs, kindRank c = 2 := by
  intro c hc
  unfold ogM at h
  rcases hm : ogArgsM s with - | ⟨u, r'⟩ <;> rw [hm] at h <;> simp at h
  obtain ⟨hcs, -⟩ := h
  subst hcs
  simp at hc
  subst hc
  rfl

theorem mtpM_rank {s : List Char} {cs : List Cmd} {r : List Char}
    (h : mtpM s = some (cs, r)) : ∀ c ∈ cs, kindRank c = 3 := by
  intro c hc
  unfold mtpM at h
  rcases hm : mtpArgsM s with - | ⟨⟨x, y, z⟩, r'⟩ <;> rw [hm] at h <;> simp at h
  obtain ⟨hcs, -⟩ := h
  subst hcs
  simp at hc
  subst hc
  rfl

theorem mvM_rank {s : List Char} {cs : List Cmd} {r : List Char}
    (h : mvM s = some (cs, r)) : ∀ c ∈ cs, kindRank c = 4 := by
  intro c hc
  unfold mvM at h
  rcases hm : mvArgsM s with - | ⟨⟨vx, wz⟩, r'⟩ <;> rw [hm] at h <;> simp at h
  obtain ⟨hcs, -⟩ := h
  subst hcs
  simp at hc
  subst hc
  rfl

theorem gdM_rank {s : List Char} {cs : List Cmd} {r : List Char}
    (h : gdM s = some (cs, r)) : ∀ c ∈ cs, kindRank c = 5 := by
  intro c hc
  unfold gdM at h
  rcases hm : gdArgsM s with - | ⟨u, r'⟩ <;> rw [hm] at h <;> simp at h
  obtain ⟨hcs, -⟩ := h
  subst hcs
  simp at hc
  subst hc
  rfl

theorem slM_rank {s : List Char} {cs : List Cmd} {r : List Char}
    (h : slM s = some (cs, r)) : ∀ c ∈ cs, kindRank c = 6 := by
  intro c hc
  unfold slM at h
  rcases hm : slArgsM s with - | ⟨tok, r'⟩ <;> rw [hm] at h <;> simp at h
  obtain ⟨hcs, -⟩ := h
  subst hcs
  simp at hc
  subst hc
  rfl

/-- Anything a single-kind scan emits satisfies what the matcher guarantees. -/
theorem scanKind_mem {f : List Char → Option (List Cmd × List Char)} {P : Cmd → Prop}
    (hf : ∀ s cs r, f s = some (cs, r) → ∀ c ∈ cs, P c) :
    ∀ (fuel : ℕ) (s : List Char) (c : Cmd), c ∈ scanKind f fuel s → P c := by
  intro fuel
  induction fuel with
  | zero => intro s c hc; simp [scanKind] at hc
  | succ n ih =>
    intro s c hc
    cases s with
    | nil => simp [scanKind] at hc
    | cons ch rest =>
      rw [scanKind] at hc
      rcases hm : f (ch :: rest) with - | ⟨cs, rest2⟩ <;> rw [hm] at hc
      · exact ih rest c hc
      · rcases List.mem_append.mp hc with h1 | h2
        · exact hf _ _ _ hm c h1
        · exact ih rest2 c h2

theorem pairwise_const_rank {l : List Cmd} {k : ℕ} (h : ∀ c ∈ l, kindRank c = k) :
    l.Pairwise (fun a b => kindRank a ≤ kindRank b) := by
  induction l with
  | nil => simp
  | cons x xs ih =>
    simp only [List.pairwise_cons]
    refine ⟨fun b hb => ?_, ih fun c hcm => h c (by simp [hcm])⟩
    rw [h x (by simp), h b (by simp [hb])]

theorem pairwise_rank_build {l₁ l₂ : List Cmd} {k₁ k₂ : ℕ} (hk : k₁ ≤ k₂)
    (h₁ : ∀ c ∈ l₁, kindRank c = k₁)
    (h₂ : l₂.Pairwise (fun a b => kindRank a ≤ kindRank b) ∧ ∀ c ∈ l₂, k₂ ≤ kindRank c) :
    (l₁ ++ l₂).Pairwise (fun a b => kindRank a ≤ kindRank b) ∧
      ∀ c ∈ l₁ ++ l₂, k₁ ≤ kindRank c := by
  constructor
  · rw [List.pairwise_append]
    refine ⟨pairwise_const_rank h₁, h₂.1, fun a ha b hb => ?_⟩
    rw [h₁ a ha]
    exact le_trans hk (h₂.2 b hb)
  · intro c hcm
    rcases List.mem_append.mp hcm with h | h
    · rw [h₁ c h]
    · exact le_trans hk (h₂.2 c h)

/-- The seven per-kind scans, concatenated in source order, are grouped by
scan rank. -/
theorem scans_pairwise (n : ℕ) (c2 : List Char) :
    (scanKind mjM n c2 ++ scanKind cgM n c2 ++ scanKind ogM n c2 ++ scanKind mtpM n c2 ++
      scanKind mvM n c2 ++ scanKind gdM n c2 ++ scanKind slM n c2).Pairwise
      (fun a b => kindRank a ≤ kindRank b) := by
  have r0 : ∀ c ∈ scanKind mjM n c2, kindRank c = 0 :=
    fun c hc => scanKind_mem (fun s cs r h => mjM_rank h) n c2 c hc
  have r1 : ∀ c ∈ scanKind cgM n c2, kindRank c = 1 :=
    fun c hc => scanKind_mem (fun s cs r h => cgM_rank h) n c2 c hc
  have r2 : ∀ c ∈ scanKind ogM n c2, kindRank c = 2 :=
    fun c hc => scanKind_mem (fun s cs r h => ogM_rank h) n c2 c hc
  have r3 : ∀ c ∈ scanKind mtpM n c2, kindRank c = 3 :=
    fun c hc => scanKind_mem (fun s cs r h => mtpM_rank h) n c2 c hc
  have r4 : ∀ c ∈ scanKind mvM n c2, kindRank c = 4 :=
    fun c hc => scanKind_mem (fun s cs r h => mvM_rank h) n c2 c hc
  have r5 : ∀ c ∈ scanKind gdM n c2, kindRank c = 5 :=
    fun c hc => scanKind_mem (fun s cs r h => gdM_rank h) n c2 c hc
  have r6 : ∀ c ∈ scanKind slM n c2, kindRank c = 6 :=
    fun c hc => scanKind_mem (fun s cs r h => slM_rank h) n c2 c hc
  have b6 : (scanKind slM n c2).Pairwise (fun a b => kindRank a ≤ kindRank b) ∧
      ∀ c ∈ scanKind slM n c2, 6 ≤ kindRank c :=
    ⟨pairwise_const_rank r6, fun c hc => le_of_eq (r6 c hc).symm⟩
  have b5 := pairwise_rank_build (by norm_num) r5 b6
  have b4 := pairwise_rank_build (by norm_num) r4 b5
  have b3 := pairwise_rank_build (by norm_num) r3 b4
  have b2 := pairwise_rank_build (by norm_num) r2 b3
  have b1 := pairwise_rank_build (by norm_num) r1 b2
  have b0 := pairwise_rank_build (by norm_num) r0 b1
  simpa [List.append_assoc] using b0.1

theorem parse_moveJoint_le {code : List Char} {j : ℕ} {a : ℚ}
    (hc : Cmd.moveJoint j a ∈ parseCommands code) : j ≤ 4 := by
  simp only [parseCommands, List.mem_append] at hc
  rcases hc with ((((((h | h) | h) | h) | h) | h) | h)
  · obtain ⟨j', a', hj', heq⟩ :=
      @scanKind_mem mjM (fun c => ∃ j a, j ≤ 4 ∧ c = Cmd.moveJoint j a)
        (fun s cs r hm => mjM_emits hm) _ _ _ h
    injection heq with h1 h2
    subst h1
    exact hj'
  · have := scanKind_mem (fun s cs r hm => cgM_rank hm) _ _ _ h
    simp [kindRank] at this
  · have := scanKind_mem (fun s cs r hm => ogM_rank hm) _ _ _ h
    simp [kindRank] at this
  · have := scanKind_mem (fun s cs r hm => mtpM_rank hm) _ _ _ h
    simp [kindRank] at this
  · have := scanKind_mem (fun s cs r hm => mvM_rank hm) _ _ _ h
    simp [kindRank] at this
  · have := scanKind_mem (fun s cs r hm => gdM_rank hm) _ _ _ h
    simp [kindRank] at this
  · have := scanKind_mem (fun s cs r hm => slM_rank hm) _ _ _ h
    simp [kindRank] at this

/-! ### Within-kind positional order of the scans

Every matcher either fails or consumes at least one character (its command
literal is nonempty) and emits at most one command, so the instrumented scan
`scanKindPos` records strictly increasing match positions: each kind's
matches are emitted in the order of their position in the comment-stripped
text. -/

theorem litM_length : ∀ (lit s r : List Char), litM lit s = some r → r.length + lit.length = s.length := by
  intro lit
  induction lit with
  | nil =>
    intro s r h
    injection h with h
    subst h
    simp
  | cons c cs ih =>
    intro s r h
    cases s with
    | nil => exact absurd h (by simp [litM])
    | cons d rest =>
      rw [litM] at h
      split_ifs at h with hd
      have := ih rest r h
      simp only [List.length_cons]
      omega

theorem wsDrop_length_le (s : List Char) : (wsDrop s).length ≤ s.length := by
  unfold wsDrop
  induction s with
  | nil => simp
  | cons c rest ih =>
    rw [List.dropWhile_cons]
    split_ifs
    · exact le_trans ih (Nat.le_succ _)
    · simp

theorem digits1_length_le {s ds r : List Char} (h : digits1 s = some (ds, r)) :
    r.length ≤ s.length := by
  simp only [digits1] at h
  split_ifs at h
  injection h with h
  injection h with h1 h2
  subst h2
  simp

theorem numLit_length_le {s : List Char} {q : ℚ} {r : List Char}
    (h : numLit s = some (q, r)) : r.length ≤ s.length := by
  simp only [numLit] at h
  split at h
  · exact absurd h (by simp)
  · rename_i ds s2 heq
    have hsgn : (match s with
        | '-' :: r => ((true : Bool), r)
        | _ => ((false : Bool), s)).2.length ≤ s.length := by
      split <;> simp
    have h2 : s2.length ≤ s.length := le_trans (digits1_length_le heq) hsgn
    split at h
    · rename_i s3
      split at h
      · rename_i fs s4 heq3
        injection h with h
        injection h with h1 hr
        subst hr
        have h3 := digits1_length_le heq3
        simp only [List.length_cons] at h2
        omega
      · injection h with h
        injection h with h1 hr
        subst hr
        exact h2
    · injection h with h
      injection h with h1 hr
      subst hr
      exact h2

theorem mjArgsM_consumes {s : List Char} {p : (ℕ × ℚ) × List Char}
    (h : mjArgsM s = some p) : p.2.length < s.length := by
  unfold mjArgsM at h
  split at h
  · exact absurd h (by simp)
  · rename_i s1 hlit
    have hl := litM_length _ _ _ hlit
    have hl15 : ("robot.moveJoint".toList).length = 15 := rfl
    split at h
    · rename_i s2 heq2
      have hw1 := wsDrop_length_le s1
      have he2 : (wsDrop s1).length = s2.length + 1 := by rw [heq2]; rfl
      split at h
      · exact absurd h (by simp)
      · rename_i ds s3 heq3
        have hd3 := digits1_length_le heq3
        have hw2 := wsDrop_length_le s2
        split at h
        · rename_i s4 heq4
          have hw3 := wsDrop_length_le s3
          have he4 : (wsDrop s3).length = s4.length + 1 := by rw [heq4]; rfl
          split at h
          · exact absurd h (by simp)
          · rename_i a s5 heq5
            have hn5 := numLit_length_le heq5
            have hw4 := wsDrop_length_le s4
            split at h
            · rename_i s6 heq6
              have hw5 := wsDrop_length_le s5
              have he6 : (wsDrop s5).length = s6.length + 1 := by rw [heq6]; rfl
              injection h with h
              subst h
              simp only []
              omega
            · exact absurd h (by simp)
        · exact absurd h (by simp)
    · exact absurd h (by simp)

theorem cgArgsM_consumes {s : List Char} {p : Option ℚ × List Char}
    (h : cgArgsM s = some p) : p.2.length < s.length := by
  unfold cgArgsM at h
  split at h
  · exact absurd h (by simp)
  · rename_i s1 hlit
    have hl := litM_length _ _ _ hlit
    have hl18 : ("robot.closeGripper".toList).length = 18 := rfl
    split at h
    · rename_i s2 heq2
      have hw1 := wsDrop_length_le s1
      have he2 : (wsDrop s1).length = s2.length + 1 := by rw [heq2]; rfl
      split at h
      · rename_i q s3 heq3
        have hn3 := numLit_length_le heq3
        have hw2 := wsDrop_length_le s2
        split at h
        · rename_i s4 heq4
          have hw3 := wsDrop_length_le s3
          have he4 : (wsDrop s3).length = s4.length + 1 := by rw [heq4]; rfl
          injection h with h
          subst h
          simp only []
          omega
        · exact absurd h (by simp)
      · split at h
        · rename_i s4 heq4
          have hw2 := wsDrop_length_le s2
          have he4 : (wsDrop s2).length = s4.length + 1 := by rw [heq4]; rfl
          injection h with h
          subst h
          simp only []
          omega
        · exact absurd h (by simp)
    · exact absurd h (by simp)

theorem ogArgsM_consumes {s : List Char} {p : Unit × List Char}
    (h : ogArgsM s = some p) : p.2.length < s.length := by
  unfold ogArgsM at h
  split at h
  · exact absurd h (by simp)
  · rename_i s1 hlit
    have hl := litM_length _ _ _ hlit
    have hl17og : ("robot.openGripper".toList).length = 17 := rfl
    split at h
    · rename_i s2 heq2
      have hw1 := wsDrop_length_le s1
      have he2 : (wsDrop s1).length = s2.length + 1 := by rw [heq2]; rfl
      split at h
      · rename_i s3 heq3
        have hw2 := wsDrop_length_le s2
        have he3 : (wsDrop s2).length = s3.length + 1 := by rw [heq3]; rfl
        injection h with h
        subst h
        simp only []
        omega
      · exact absurd h (by simp)
    · exact absurd h (by simp)

theorem gdArgsM_consumes {s : List Char} {p : Unit × List Char}
    (h : gdArgsM s = some p) : p.2.length < s.length := by
  unfold gdArgsM at h
  split at h
  · exact absurd h (by simp)
  · rename_i s1 hlit
    have hl := litM_length _ _ _ hlit
    have hl17 : ("robot.getDistance".toList).length = 17 := rfl
    split at h
    · rename_i s2 heq2
      have hw1 := wsDrop_length_le s1
      have he2 : (wsDrop s1).length = s2.length + 1 := by rw [heq2]; rfl
      split at h
      · rename_i s3 heq3
        have hw2 := wsDrop_length_le s2
        have he3 : (wsDrop s2).length = s3.length + 1 := by rw [heq3]; rfl
        injection h with h
        subst h
        simp only []
        omega
      · exact absurd h (by simp)
    · exact absurd h (by simp)

theorem mvArgsM_consumes {s : List Char} {p : (ℚ × ℚ) × List Char}
    (h : mvArgsM s = some p) : p.2.length < s.length := by
  unfold mvArgsM at h
  split at h
  · exact absurd h (by simp)
  · rename_i s1 hlit
    have hl := litM_length _ _ _ hlit
    have hl10 : ("robot.move".toList).length = 10 := rfl
    split at h
    · rename_i s2 heq2
      have hw1 := wsDrop_length_le s1
      have he2 : (wsDrop s1).length = s2.length + 1 := by rw [heq2]; rfl
      split at h
      · exact absurd h (by simp)
      · rename_i vx s3 heq3
        have hn3 := numLit_length_le heq3
        have hw2 := wsDrop_length_le s2
        split at h
        · rename_i s4 heq4
          have hw3 := wsDrop_length_le s3
          have he4 : (wsDrop s3).length = s4.length + 1 := by rw [heq4]; rfl
          split at h
          · exact absurd h (by simp)
          · rename_i wz s5 heq5
            have hn5 := numLit_length_le heq5
            have hw4 := wsDrop_length_le s4
            split at h
            · rename_i s6 heq6
              have hw5 := wsDrop_length_le s5
              have he6 : (wsDrop s5).length = s6.length + 1 := by rw [heq6]; rfl
              injection h with h
              subst h
              simp only []
              omega
            · exact absurd h (by simp)
        · exact absurd h (by simp)
    · exact absurd h (by simp)

theorem mtpArgsM_consumes {s : List Char} {p : (ℚ × ℚ × ℚ) × List Char}
    (h : mtpArgsM s = some p) : p.2.length < s.length := by
  unfold mtpArgsM at h
  split at h
  · exact absurd h (by simp)
  · rename_i s1 hlit
    have hl := litM_length _ _ _ hlit
    have hl16 : ("robot.moveToPose".toList).length = 16 := rfl
    split at h
    · rename_i s2 heq2
      have hw1 := wsDrop_length_le s1
      have he2 : (wsDrop s1).length = s2.length + 1 := by rw [heq2]; rfl
      split at h
      · exact absurd h (by simp)
      · rename_i x s3 heq3
        have hn3 := numLit_length_le heq3
        have hw2 := wsDrop_length_le s2
        split at h
        · rename_i s4 heq4
          have hw3 := wsDrop_length_le s3
          have he4 : (wsDrop s3).length = s4.length + 1 := by rw [heq4]; rfl
          split at h
          · exact absurd h (by simp)
          · rename_i y s5 heq5
            have hn5 := numLit_length_le heq5
            have hw4 := wsDrop_length_le s4
            split at h
            · rename_i s6 heq6
              have hw5 := wsDrop_length_le s5
              have he6 : (wsDrop s5).length = s6.length + 1 := by rw [heq6]; rfl
              split at h
              · exact absurd h (by simp)
              · rename_i z s7 heq7
                have hn7 := numLit_length_le heq7
                have hw6 := wsDrop_length_le s6
                split at h
                · rename_i s8 heq8
                  have hw7 := wsDrop_length_le s7
                  have he8 : (wsDrop s7).length = s8.length + 1 := by rw [heq8]; rfl
                  injection h with h
                  subst h
                  simp only []
                  omega
                · exact absurd h (by simp)
            · exact absurd h (by simp)
        · exact absurd h (by simp)
    · exact absurd h (by simp)

theorem slQuoted_length_le {qc : Char} {s : List Char} {p : List Char × List Char}
    (h : slQuoted qc s = some p) : p.2.length ≤ s.length := by
  simp only [slQuoted] at h
  split_ifs at h
  split at h
  · rename_i c s2 heq2
    have hdrop : (s.drop (slTok s).length).length = s.length - (slTok s).length :=
      List.length_drop _ _
    have he2 : (s.drop (slTok s).length).length = s2.length + 1 := by rw [heq2]; rfl
    split_ifs at h
    split at h
    · rename_i s3 heq3
      have hw := wsDrop_length_le s2
      have he3 : (wsDrop s2).length = s3.length + 1 := by rw [heq3]; rfl
      injection h with h
      subst h
      simp only []
      omega
    · exact absurd h (by simp)
  · exact absurd h (by simp)

theorem slBare_length_le {s : List Char} {p : List Char × List Char}
    (h : slBare s = some p) : p.2.length ≤ s.length := by
  simp only [slBare] at h
  split_ifs at h
  split at h
  · rename_i s2 heq2
    have hdrop : (s.drop (slTok s).length).length = s.length - (slTok s).length :=
      List.length_drop _ _
    have hw := wsDrop_length_le (s.drop (slTok s).length)
    have he2 : (wsDrop (s.drop (slTok s).length)).length = s2.length + 1 := by rw [heq2]; rfl
    injection h with h
    subst h
    simp only []
    omega
  · exact absurd h (by simp)

theorem slArgsM_consumes {s : List Char} {p : List Char × List Char}
    (h : slArgsM s = some p) : p.2.length < s.length := by
  unfold slArgsM at h
  split at h
  · exact absurd h (by simp)
  · rename_i s1 hlit
    have hl := litM_length _ _ _ hlit
    have hl14 : ("robot.setLight".toList).length = 14 := rfl
    split at h
    · rename_i s2 heq2
      have hw1 := wsDrop_length_le s1
      have he2 : (wsDrop s1).length = s2.length + 1 := by rw [heq2]; rfl
      split at h
      · rename_i s3 heq3
        have hw2 := wsDrop_length_le s2
        have he3 : (wsDrop s2).length = s3.length + 1 := by rw [heq3]; rfl
        have hq := slQuoted_length_le h
        omega
      · rename_i s3 heq3
        have hw2 := wsDrop_length_le s2
        have he3 : (wsDrop s2).length = s3.length + 1 := by rw [heq3]; rfl
        have hq := slQuoted_length_le h
        omega
      · have hw2 := wsDrop_length_le s2
        have hq := slBare_length_le h
        omega
    · exact absurd h (by simp)

theorem mjM_consumes {s : List Char} {cs : List Cmd} {r : List Char}
    (h : mjM s = some (cs, r)) : r.length < s.length ∧ cs.length ≤ 1 := by
  unfold mjM at h
  rcases hm : mjArgsM s with - | ⟨⟨j, a⟩, r'⟩ <;> rw [hm] at h
  · exact absurd h (by simp)
  · simp only [Option.some.injEq, Prod.mk.injEq] at h
    obtain ⟨hcs, hr⟩ := h
    subst hr
    refine ⟨mjArgsM_consumes hm, ?_⟩
    subst hcs
    split_ifs <;> simp

theorem cgM_consumes {s : List Char} {cs : List Cmd} {r : List Char}
    (h : cgM s = some (cs, r)) : r.length < s.length ∧ cs.length ≤ 1 := by
  unfold cgM at h
  rcases hm : cgArgsM s with - | ⟨q, r'⟩ <;> rw [hm] at h <;> simp at h
  obtain ⟨hcs, hr⟩ := h
  subst hr
  subst hcs
  exact ⟨cgArgsM_consumes hm, by simp⟩

theorem ogM_consumes {s : List Char} {cs : List Cmd} {r : List Char}
    (h : ogM s = some (cs, r)) : r.length < s.length ∧ cs.length ≤ 1 := by
  unfold ogM at h
  rcases hm : ogArgsM s with - | ⟨u, r'⟩ <;> rw [hm] at h <;> simp at h
  obtain ⟨hcs, hr⟩ := h
  subst hr
  subst hcs
  exact ⟨ogArgsM_consumes hm, by simp⟩

theorem mtpM_consumes {s : List Char} {cs : List Cmd} {r : List Char}
    (h : mtpM s = some (cs, r)) : r.length < s.length ∧ cs.length ≤ 1 := by
  unfold mtpM at h
  rcases hm : mtpArgsM s with - | ⟨⟨x, y, z⟩, r'⟩ <;> rw [hm] at h <;> simp at h
  obtain ⟨hcs, hr⟩ := h
  subst hr
  subst hcs
  exact ⟨mtpArgsM_consumes hm, by simp⟩

theorem mvM_consumes {s : List Char} {cs : List Cmd} {r : List Char}
    (h : mvM s = some (cs, r)) : r.length < s.length ∧ cs.length ≤ 1 := by
  unfold mvM at h
  rcases hm : mvArgsM s with - | ⟨⟨vx, wz⟩, r'⟩ <;> rw [hm] at h <;> simp at h
  obtain ⟨hcs, hr⟩ := h
  subst hr
  subst hcs
  exact ⟨mvArgsM_consumes hm, by simp⟩

theorem gdM_consumes {s : List Char} {cs : List Cmd} {r : List Char}
    (h : gdM s = some (cs, r)) : r.length < s.length ∧ cs.length ≤ 1 := by
  unfold gdM at h
  rcases hm : gdArgsM s with - | ⟨u, r'⟩ <;> rw [hm] at h <;> simp at h
  obtain ⟨hcs, hr⟩ := h
  subst hr
  subst hcs
  exact ⟨gdArgsM_consumes hm, by simp⟩

theorem slM_consumes {s : List Char} {cs : List Cmd} {r : List Char}
    (h : slM s = some (cs, r)) : r.length < s.length ∧ cs.length ≤ 1 := by
  unfold slM at h
  rcases hm : slArgsM s with - | ⟨tok, r'⟩ <;> rw [hm] at h <;> simp at h
  obtain ⟨hcs, hr⟩ := h
  subst hr
  subst hcs
  exact ⟨slArgsM_consumes hm, by simp⟩

/-- Dropping the positions from the instrumented scan gives back the scan. -/
theorem scanKindPos_snd (f : List Char → Option (List Cmd × List Char)) :
    ∀ (fuel pos : ℕ) (s : List Char),
      (scanKindPos f fuel pos s).map Prod.snd = scanKind f fuel s := by
  intro fuel
  induction fuel with
  | zero => intro pos s; rfl
  | succ n ih =>
    intro pos s
    cases s with
    | nil => rfl
    | cons c rest =>
      rw [scanKindPos, scanKind]
      rcases hm : f (c :: rest) with - | ⟨cs, rest2⟩
      · exact ih (pos + 1) rest
      · show List.map Prod.snd
            (List.map (fun cmd => (pos, cmd)) cs ++
              scanKindPos f n (pos + ((c :: rest).length - rest2.length)) rest2) =
          cs ++ scanKind f n rest2
        rw [List.map_append, List.map_map, ih]
        congr 1
        simp

/-- A scan whose matcher always consumes input and emits at most one command
per match records strictly increasing match positions. -/
theorem scanKindPos_sorted {f : List Char → Option (List Cmd × List Char)}
    (hf : ∀ s cs r, f s = some (cs, r) → r.length < s.length ∧ cs.length ≤ 1) :
    ∀ (fuel pos : ℕ) (s : List Char),
      (scanKindPos f fuel pos s).Pairwise (fun a b => a.1 < b.1) ∧
      ∀ q ∈ scanKindPos f fuel pos s, pos ≤ q.1 := by
  intro fuel
  induction fuel with
  | zero =>
    intro pos s
    exact ⟨List.Pairwise.nil, by intro q hq; simp [scanKindPos] at hq⟩
  | succ n ih =>
    intro pos s
    cases s with
    | nil =>
      refine ⟨List.Pairwise.nil, ?_⟩
      intro q hq
      simp [scanKindPos] at hq
    | cons c rest =>
      rw [scanKindPos]
      rcases hm : f (c :: rest) with - | ⟨cs, rest2⟩
      · obtain ⟨hp, hb⟩ := ih (pos + 1) rest
        exact ⟨hp, fun q hq => le_trans (Nat.le_succ pos) (hb q hq)⟩
      · obtain ⟨hlen, hone⟩ := hf _ _ _ hm
        have hcons : 1 ≤ (c :: rest).length - rest2.length := by
          simp only [List.length_cons] at hlen ⊢
          omega
        obtain ⟨hp, hb⟩ := ih (pos + ((c :: rest).length - rest2.length)) rest2
        constructor
        · show List.Pairwise (fun a b => a.1 < b.1)
            (List.map (fun cmd => (pos, cmd)) cs ++
              scanKindPos f n (pos + ((c :: rest).length - rest2.length)) rest2)
          rw [List.pairwise_append]
          refine ⟨?_, hp, ?_⟩
          · rcases cs with - | ⟨a, - | ⟨b, t⟩⟩
            · simp
            · simp
            · simp at hone
          · intro x hx y hy
            obtain ⟨cmd, -, hx2⟩ := List.mem_map.mp hx
            have hy2 := hb y hy
            rw [← hx2]
            simp only []
            omega
        · show ∀ q ∈ List.map (fun cmd => (pos, cmd)) cs ++
              scanKindPos f n (pos + ((c :: rest).length - rest2.length)) rest2, pos ≤ q.1
          intro q hq
          rcases List.mem_append.mp hq with hq1 | hq2
          · obtain ⟨cmd, -, hq3⟩ := List.mem_map.mp hq1
            rw [← hq3]
          · exact le_trans (Nat.le_add_right pos _) (hb q hq2)

theorem parseCommands_eq_posScans (code : List Char) :
    parseCommands code =
      (parsePosScan mjM code).map Prod.snd ++ (parsePosScan cgM code).map Prod.snd ++
      (parsePosScan ogM code).map Prod.snd ++ (parsePosScan mtpM code).map Prod.snd ++
      (parsePosScan mvM code).map Prod.snd ++ (parsePosScan gdM code).map Prod.snd ++
      (parsePosScan slM code).map Prod.snd := by
  simp only [parseCommands, parsePosScan, stripAll, scanKindPos_snd]

/-! ### Claim C8 -/

unseal Rat.mul Rat.add Rat.sub Rat.inv in
/-- **C8.** For every input text: (i) the parser's output is grouped by
command kind in the fixed scan order moveJoint, closeGripper, openGripper,
moveToPose, move, getDistance, setLight — all matches of one kind before any
of the next; (ii) the output is exactly the concatenation, in that order, of
the seven per-kind scans of the comment-stripped text, and within each kind
the matches carry strictly increasing match positions in that text (the
position-instrumented scans are strictly sorted by position); and (iii)
`robot.move(1.0, 0.0); robot.setLight("#00ff00");` parses to
`SetVelocity(1,0)` followed by `SetLight "#00ff00"`. -/
theorem parser_kind_grouping_and_example :
    (∀ code : List Char,
      (parseCommands code).Pairwise (fun a b => kindRank a ≤ kindRank b)) ∧
    (∀ code : List Char,
      parseCommands code =
        (parsePosScan mjM code).map Prod.snd ++ (parsePosScan cgM code).map Prod.snd ++
        (parsePosScan ogM code).map Prod.snd ++ (parsePosScan mtpM code).map Prod.snd ++
        (parsePosScan mvM code).map Prod.snd ++ (parsePosScan gdM code).map Prod.snd ++
        (parsePosScan slM code).map Prod.snd ∧
      (parsePosScan mjM code).Pairwise (fun a b => a.1 < b.1) ∧
      (parsePosScan cgM code).Pairwise (fun a b => a.1 < b.1) ∧
      (parsePosScan ogM code).Pairwise (fun a b => a.1 < b.1) ∧
      (parsePosScan mtpM code).Pairwise (fun a b => a.1 < b.1) ∧
      (parsePosScan mvM code).Pairwise (fun a b => a.1 < b.1) ∧
      (parsePosScan gdM code).Pairwise (fun a b => a.1 < b.1) ∧
      (parsePosScan slM code).Pairwise (fun a b => a.1 < b.1)) ∧
    parseCommands ("robot.move(1.0, 0.0); robot.setLight(\"#00ff00\");".toList) =
      [Cmd.move 1 0, Cmd.setLight "#00ff00"] := by
  refine ⟨?_, ?_, by decide⟩
  · intro code
    simp only [parseCommands]
    exact scans_pairwise _ _
  · intro code
    refine ⟨parseCommands_eq_posScans code,
      (scanKindPos_sorted (fun s cs r h => mjM_consumes h) _ _ _).1,
      (scanKindPos_sorted (fun s cs r h => cgM_consumes h) _ _ _).1,
      (scanKindPos_sorted (fun s cs r h => ogM_consumes h) _ _ _).1,
      (scanKindPos_sorted (fun s cs r h => mtpM_consumes h) _ _ _).1,
      (scanKindPos_sorted (fun s cs r h => mvM_consumes h) _ _ _).1,
      (scanKindPos_sorted (fun s cs r h => gdM_consumes h) _ _ _).1,
      (scanKindPos_sorted (fun s cs r h => slM_consumes h) _ _ _).1⟩

/-! ### Claim C9 -/

unseal Rat.mul Rat.add Rat.sub Rat.inv in
/-- **C9.** A `robot.moveJoint` call with joint index outside 0..4 is silently
dropped while other commands still parse: the given input yields exactly
`MoveJoint 0 45` and `OpenGripper`, and in general every emitted `MoveJoint`
has index at most 4. -/
theorem movejoint_filter_and_example :
    parseCommands
        ("robot.moveJoint(0, 45); robot.moveJoint(7, 10); robot.openGripper();".toList) =
      [Cmd.moveJoint 0 45, Cmd.openGripper] ∧
    ∀ (code : List Char) (j : ℕ) (a : ℚ), Cmd.moveJoint j a ∈ parseCommands code → j ≤ 4 := by
  refine ⟨by decide, ?_⟩
  intro code j a hc
  exact parse_moveJoint_le hc

unseal Rat.mul Rat.add Rat.sub Rat.inv in
/-- Witness for C9: a concrete in-range `moveJoint` is parsed, and the filter
theorem applies to it. -/
theorem movejoint_filter_witness :
    Cmd.moveJoint 2 30 ∈ parseCommands ("robot.moveJoint(2, 30);".toList) ∧ (2 : ℕ) ≤ 4 :=
  ⟨by decide, movejoint_filter_and_example.2 ("robot.moveJoint(2, 30);".toList) 2 30 (by decide)⟩

/-! ### Claim C10 -/

/-- **C10 counterexample.** On an empty parse the run alerts and returns
early: contrary to the claim, the robot is *not* reset and the 500 ms settle
does *not* elapse — no reset or settle event occurs in the trace. -/
theorem empty_run_returns_before_reset :
    handleRun ("".toList) = [RunEvent.alerted] ∧
      RunEvent.resetRobot ∉ handleRun ("".toList) ∧
      RunEvent.settle 500 ∉ handleRun ("".toList) := by
  decide

/-- **C10 (amended).** A run whose parsed command sequence is empty surfaces
only the "no commands" notice and returns before the reset: the trace is
exactly the alert, with no reset, settle, or execution. -/
theorem empty_run_alert_only (code : List Char) (h : parseCommands code = []) :
    handleRun code = [RunEvent.alerted] := by
  unfold handleRun
  simp [h]

/-- Witness for the amended C10 at a concrete commandless program. -/
theorem empty_run_alert_only_witness :
    parseCommands ("int x = 3;".toList) = [] ∧
      handleRun ("int x = 3;".toList) = [RunEvent.alerted] :=
  ⟨by decide, empty_run_alert_only ("int x = 3;".toList) (by decide)⟩

/-! ### Rover physics: per-field characterization of one tick -/

theorem tick_robotType (s : RoverStore) (now dt : ℝ) :
    (updateRoverPhysics s now dt).robotType = s.robotType := by
  unfold updateRoverPhysics
  by_cases hr : s.robotType = RobotType.rover
  · rw [if_pos hr]
    by_cases hw : watchdogExpired s.lastCommandTime now <;>
      by_cases hf : postWatchdogVx s now ≠ 0 ∨ postWatchdogWz s now ≠ 0 <;>
        by_cases hwz : postFrictionWz s now dt ≠ 0 <;>
          by_cases hvx : postFrictionVx s now dt ≠ 0 <;>
            simp_all [rsSetVelocity, rsSetRotation, rsSetPosition]
  · rw [if_neg hr]

theorem tick_vx (s : RoverStore) (now dt : ℝ) (hr : s.robotType = RobotType.rover) :
    (updateRoverPhysics s now dt).vx = postFrictionVx s now dt := by
  unfold updateRoverPhysics
  rw [if_pos hr]
  by_cases hw : watchdogExpired s.lastCommandTime now <;>
    by_cases hf : postWatchdogVx s now ≠ 0 ∨ postWatchdogWz s now ≠ 0 <;>
      by_cases hwz : postFrictionWz s now dt ≠ 0 <;>
        by_cases hvx : postFrictionVx s now dt ≠ 0 <;>
          simp_all [rsSetVelocity, rsSetRotation, rsSetPosition,
            postFrictionVx, postWatchdogVx, postWatchdogWz]

theorem tick_wz (s : RoverStore) (now dt : ℝ) (hr : s.robotType = RobotType.rover) :
    (updateRoverPhysics s now dt).wz = postFrictionWz s now dt := by
  unfold updateRoverPhysics
  rw [if_pos hr]
  by_cases hw : watchdogExpired s.lastCommandTime now <;>
    by_cases hf : postWatchdogVx s now ≠ 0 ∨ postWatchdogWz s now ≠ 0 <;>
      by_cases hwz : postFrictionWz s now dt ≠ 0 <;>
        by_cases hvx : postFrictionVx s now dt ≠ 0 <;>
          simp_all [rsSetVelocity, rsSetRotation, rsSetPosition,
            postFrictionWz, postWatchdogVx, postWatchdogWz]

theorem tick_rotation (s : RoverStore) (now dt : ℝ) (hr : s.robotType = RobotType.rover) :
    (updateRoverPhysics s now dt).rotation = s.rotation + postFrictionWz s now dt * dt := by
  unfold updateRoverPhysics
  rw [if_pos hr]
  by_cases hw : watchdogExpired s.lastCommandTime now <;>
    by_cases hf : postWatchdogVx s now ≠ 0 ∨ postWatchdogWz s now ≠ 0 <;>
      by_cases hwz : postFrictionWz s now dt ≠ 0 <;>
        by_cases hvx : postFrictionVx s now dt ≠ 0 <;>
          simp_all [rsSetVelocity, rsSetRotation, rsSetPosition]

theorem tick_posX (s : RoverStore) (now dt : ℝ) (hr : s.robotType = RobotType.rover) :
    (updateRoverPhysics s now dt).posX =
      s.posX + postFrictionVx s now dt * Real.sin s.rotation * dt := by
  unfold updateRoverPhysics
  rw [if_pos hr]
  by_cases hw : watchdogExpired s.lastCommandTime now <;>
    by_cases hf : postWatchdogVx s now ≠ 0 ∨ postWatchdogWz s now ≠ 0 <;>
      by_cases hwz : postFrictionWz s now dt ≠ 0 <;>
        by_cases hvx : postFrictionVx s now dt ≠ 0 <;>
          simp_all [rsSetVelocity, rsSetRotation, rsSetPosition]

theorem tick_posY (s : RoverStore) (now dt : ℝ) :
    (updateRoverPhysics s now dt).posY = s.posY := by
  unfold updateRoverPhysics
  by_cases hr : s.robotType = RobotType.rover
  · rw [if_pos hr]
    by_cases hw : watchdogExpired s.lastCommandTime now <;>
      by_cases hf : postWatchdogVx s now ≠ 0 ∨ postWatchdogWz s now ≠ 0 <;>
        by_cases hwz : postFrictionWz s now dt ≠ 0 <;>
          by_cases hvx : postFrictionVx s now dt ≠ 0 <;>
            simp_all [rsSetVelocity, rsSetRotation, rsSetPosition]
  · rw [if_neg hr]

theorem tick_posZ (s : RoverStore) (now dt : ℝ) (hr : s.robotType = RobotType.rover) :
    (updateRoverPhysics s now dt).posZ =
      s.posZ + postFrictionVx s now dt * Real.cos s.rotation * dt := by
  unfold updateRoverPhysics
  rw [if_pos hr]
  by_cases hw : watchdogExpired s.lastCommandTime now <;>
    by_cases hf : postWatchdogVx s now ≠ 0 ∨ postWatchdogWz s now ≠ 0 <;>
      by_cases hwz : postFrictionWz s now dt ≠ 0 <;>
        by_cases hvx : postFrictionVx s now dt ≠ 0 <;>
          simp_all [rsSetVelocity, rsSetRotation, rsSetPosition]

theorem tick_lct_of_fric (s : RoverStore) (now dt : ℝ) (hr : s.robotType = RobotType.rover)
    (hf : postWatchdogVx s now ≠ 0 ∨ postWatchdogWz s now ≠ 0) :
    (updateRoverPhysics s now dt).lastCommandTime = some now := by
  unfold updateRoverPhysics
  rw [if_pos hr]
  by_cases hw : watchdogExpired s.lastCommandTime now <;>
    by_cases hwz : postFrictionWz s now dt ≠ 0 <;>
      by_cases hvx : postFrictionVx s now dt ≠ 0 <;>
        simp_all [rsSetVelocity, rsSetRotation, rsSetPosition]

/-! ### Claim C3 -/

/-- **C3.** If a `SetVelocity` has been received (a nonzero timestamp is
recorded) and more than 500 ms of wall clock has passed since it, the physics
tick forces the rover velocity to exactly (0, 0). -/
theorem watchdog_stops_rover (s : RoverStore) (now dt t : ℝ)
    (hr : s.robotType = RobotType.rover) (hl : s.lastCommandTime = some t)
    (ht : t ≠ 0) (hstale : now - t > 500) :
    (updateRoverPhysics s now dt).vx = 0 ∧ (updateRoverPhysics s now dt).wz = 0 := by
  have hw : watchdogExpired s.lastCommandTime now := by
    rw [hl]
    exact ⟨ht, hstale⟩
  have h0 : postWatchdogVx s now = 0 := by simp [postWatchdogVx, hw]
  have h1 : postWatchdogWz s now = 0 := by simp [postWatchdogWz, hw]
  constructor
  · rw [tick_vx s now dt hr]
    simp [postFrictionVx, h0, h1]
  · rw [tick_wz s now dt hr]
    simp [postFrictionWz, h0, h1]

/-- Witness for C3: a command stamped at t = 100 observed at now = 700. -/
theorem watchdog_stops_rover_witness :
    (updateRoverPhysics c3Store 700 1).vx = 0 ∧ (updateRoverPhysics c3Store 700 1).wz = 0 :=
  watchdog_stops_rover c3Store 700 1 100 rfl rfl (by norm_num) (by norm_num)

/-! ### Claim C4 -/

/-- **C4.** On a tick whose post-watchdog velocity is nonzero, the friction
block writes the decayed velocity back through `setVelocity`, which also
overwrites `lastCommandTime` with the tick's wall-clock time — so watchdog
staleness is measured from this tick, not from the last user command. -/
theorem friction_refreshes_watchdog (s : RoverStore) (now dt : ℝ)
    (hr : s.robotType = RobotType.rover)
    (hf : postWatchdogVx s now ≠ 0 ∨ postWatchdogWz s now ≠ 0) :
    (updateRoverPhysics s now dt).vx = snapSmall (postWatchdogVx s now * frictionFactor dt) ∧
    (updateRoverPhysics s now dt).wz = snapSmall (postWatchdogWz s now * frictionFactor dt) ∧
    (updateRoverPhysics s now dt).lastCommandTime = some now := by
  refine ⟨?_, ?_, tick_lct_of_fric s now dt hr hf⟩
  · rw [tick_vx s now dt hr]
    unfold postFrictionVx
    rw [if_pos hf]
  · rw [tick_wz s now dt hr]
    unfold postFrictionWz
    rw [if_pos hf]

/-- Witness for C4: a coasting rover (vx = 1, no watchdog) at now = 0. -/
theorem friction_refreshes_watchdog_witness :
    (updateRoverPhysics c4Store 0 1).vx =
      snapSmall (postWatchdogVx c4Store 0 * frictionFactor 1) ∧
    (updateRoverPhysics c4Store 0 1).wz =
      snapSmall (postWatchdogWz c4Store 0 * frictionFactor 1) ∧
    (updateRoverPhysics c4Store 0 1).lastCommandTime = some 0 :=
  friction_refreshes_watchdog c4Store 0 1 rfl
    (Or.inl (by norm_num [postWatchdogVx, watchdogExpired, c4Store]))

/-! ### Claim C5: friction decay -/

theorem snapSmall_zero : snapSmall 0 = 0 := by
  simp [snapSmall]

theorem abs_snapSmall_le (v : ℝ) : |snapSmall v| ≤ |v| := by
  unfold snapSmall
  split_ifs with h
  · simp only [abs_zero]
    exact abs_nonneg v
  · exact le_refl _

theorem frictionFactor_pos (dt : ℝ) : 0 < frictionFactor dt :=
  Real.rpow_pos_of_pos (by norm_num) _

theorem frictionFactor_le_one {dt : ℝ} (h : 0 ≤ dt) : frictionFactor dt ≤ 1 :=
  Real.rpow_le_one (by norm_num) (by norm_num) (by positivity)

theorem frictionFactor_lt_one {dt : ℝ} (h : 0 < dt) : frictionFactor dt < 1 :=
  Real.rpow_lt_one (by norm_num) (by norm_num) (by positivity)

/-- The friction-block output is bounded by the decayed input, watchdog or
not. -/
theorem postFrictionVx_abs_le (s : RoverStore) (now dt : ℝ) :
    |postFrictionVx s now dt| ≤ frictionFactor dt * |s.vx| := by
  have hf := frictionFactor_pos dt
  unfold postFrictionVx postWatchdogVx postWatchdogWz
  split_ifs with hw hfr hfr
  · rw [zero_mul, snapSmall_zero, abs_zero]
    positivity
  · rw [abs_zero]
    positivity
  · refine le_trans (abs_snapSmall_le _) ?_
    rw [abs_mul, abs_of_pos hf, mul_comm]
  · simp only [not_or, not_not] at hfr
    simp [hfr.1]

theorem postFrictionWz_abs_le (s : RoverStore) (now dt : ℝ) :
    |postFrictionWz s now dt| ≤ frictionFactor dt * |s.wz| := by
  have hf := frictionFactor_pos dt
  unfold postFrictionWz postWatchdogVx postWatchdogWz
  split_ifs with hw hfr hfr
  · rw [zero_mul, snapSmall_zero, abs_zero]
    positivity
  · rw [abs_zero]
    positivity
  · refine le_trans (abs_snapSmall_le _) ?_
    rw [abs_mul, abs_of_pos hf, mul_comm]
  · simp only [not_or, not_not] at hfr
    simp [hfr.2]

/-- When both decayed components are below the snap threshold, the friction
block outputs exactly zero. -/
theorem postFriction_zero_of_small (s : RoverStore) (now dt : ℝ)
    (h1 : |s.vx * frictionFactor dt| < 0.01) (h2 : |s.wz * frictionFactor dt| < 0.01) :
    postFrictionVx s now dt = 0 ∧ postFrictionWz s now dt = 0 := by
  unfold postFrictionVx postFrictionWz postWatchdogVx postWatchdogWz
  split_ifs with hw hfr hfr
  · simp at hfr
  · exact ⟨rfl, rfl⟩
  · constructor <;> simp [snapSmall, h1, h2]
  · simp only [not_or, not_not] at hfr
    exact hfr

theorem physTicks_robotType (s0 : RoverStore) (ns : ℕ → ℝ) (dt : ℝ) (n : ℕ) :
    (physTicks s0 ns dt n).robotType = s0.robotType := by
  induction n with
  | zero => rfl
  | succ n ih => rw [physTicks, tick_robotType, ih]

theorem physTicks_vx_bound (s0 : RoverStore) (ns : ℕ → ℝ) (dt : ℝ)
    (hr : s0.robotType = RobotType.rover) (n : ℕ) :
    |(physTicks s0 ns dt n).vx| ≤ frictionFactor dt ^ n * |s0.vx| := by
  induction n with
  | zero => simp [physTicks]
  | succ n ih =>
    have hrn : (physTicks s0 ns dt n).robotType = RobotType.rover := by
      rw [physTicks_robotType]
      exact hr
    have hc := frictionFactor_pos dt
    rw [physTicks, tick_vx _ _ _ hrn]
    refine le_trans (postFrictionVx_abs_le _ _ _) ?_
    calc frictionFactor dt * |(physTicks s0 ns dt n).vx|
        ≤ frictionFactor dt * (frictionFactor dt ^ n * |s0.vx|) :=
          mul_le_mul_of_nonneg_left ih hc.le
      _ = frictionFactor dt ^ (n + 1) * |s0.vx| := by ring

theorem physTicks_wz_bound (s0 : RoverStore) (ns : ℕ → ℝ) (dt : ℝ)
    (hr : s0.robotType = RobotType.rover) (n : ℕ) :
    |(physTicks s0 ns dt n).wz| ≤ frictionFactor dt ^ n * |s0.wz| := by
  induction n with
  | zero => simp [physTicks]
  | succ n ih =>
    have hrn : (physTicks s0 ns dt n).robotType = RobotType.rover := by
      rw [physTicks_robotType]
      exact hr
    have hc := frictionFactor_pos dt
    rw [physTicks, tick_wz _ _ _ hrn]
    refine le_trans (postFrictionWz_abs_le _ _ _) ?_
    calc frictionFactor dt * |(physTicks s0 ns dt n).wz|
        ≤ frictionFactor dt * (frictionFactor dt ^ n * |s0.wz|) :=
          mul_le_mul_of_nonneg_left ih hc.le
      _ = frictionFactor dt ^ (n + 1) * |s0.wz| := by ring

/-- With a positive frame time the geometric decay drives both velocity
components below the snap threshold, after which they are exactly zero. -/
theorem physTicks_zero_after (s0 : RoverStore) (ns : ℕ → ℝ) (dt : ℝ)
    (hr : s0.robotType = RobotType.rover) (hdt : 0 < dt) :
    ∃ N, ∀ n, N ≤ n →
      (physTicks s0 ns dt n).vx = 0 ∧ (physTicks s0 ns dt n).wz = 0 := by
  have hc0 : 0 < frictionFactor dt := frictionFactor_pos dt
  have hc1 : frictionFactor dt < 1 := frictionFactor_lt_one hdt
  have hM0 : (0 : ℝ) ≤ max |s0.vx| |s0.wz| := le_trans (abs_nonneg _) (le_max_left _ _)
  obtain ⟨N, hN⟩ := exists_pow_lt_of_lt_one
    (show (0 : ℝ) < 0.01 / (max |s0.vx| |s0.wz| + 1) by positivity) hc1
  have hNM : frictionFactor dt ^ N * max |s0.vx| |s0.wz| < 0.01 := by
    rw [lt_div_iff₀ (by positivity)] at hN
    nlinarith [pow_pos hc0 N]
  have hrovN : ∀ m : ℕ, (physTicks s0 ns dt m).robotType = RobotType.rover := by
    intro m
    rw [physTicks_robotType]
    exact hr
  have hz : (physTicks s0 ns dt (N + 1)).vx = 0 ∧ (physTicks s0 ns dt (N + 1)).wz = 0 := by
    rw [physTicks, tick_vx _ _ _ (hrovN N), tick_wz _ _ _ (hrovN N)]
    apply postFriction_zero_of_small
    · have hb := physTicks_vx_bound s0 ns dt hr N
      have hbM : |(physTicks s0 ns dt N).vx| ≤ frictionFactor dt ^ N * max |s0.vx| |s0.wz| := by
        refine le_trans hb ?_
        exact mul_le_mul_of_nonneg_left (le_max_left _ _) (pow_pos hc0 N).le
      rw [abs_mul, abs_of_pos hc0]
      nlinarith [abs_nonneg (physTicks s0 ns dt N).vx]
    · have hb := physTicks_wz_bound s0 ns dt hr N
      have hbM : |(physTicks s0 ns dt N).wz| ≤ frictionFactor dt ^ N * max |s0.vx| |s0.wz| := by
        refine le_trans hb ?_
        exact mul_le_mul_of_nonneg_left (le_max_right _ _) (pow_pos hc0 N).le
      rw [abs_mul, abs_of_pos hc0]
      nlinarith [abs_nonneg (physTicks s0 ns dt N).wz]
  refine ⟨N + 1, ?_⟩
  intro n hn
  induction n, hn using Nat.le_induction with
  | base => exact hz
  | succ m hm ihm =>
    rw [physTicks, tick_vx _ _ _ (hrovN m), tick_wz _ _ _ (hrovN m)]
    apply postFriction_zero_of_small
    · rw [ihm.1]
      norm_num
    · rw [ihm.2]
      norm_num

/-- The dt = 0 orbit from a coasting rover keeps velocity (1, 0) forever: the
decay factor is `0.95^0 = 1` and the snap threshold is never reached. -/
theorem c5_orbit_const (n : ℕ) :
    (physTicks c4Store (fun _ => 0) 0 n).vx = 1 ∧
    (physTicks c4Store (fun _ => 0) 0 n).wz = 0 ∧
    ¬ watchdogExpired (physTicks c4Store (fun _ => 0) 0 n).lastCommandTime 0 := by
  have hfact : frictionFactor 0 = 1 := by
    unfold frictionFactor
    rw [zero_mul, Real.rpow_zero]
  induction n with
  | zero => exact ⟨rfl, rfl, fun h => h⟩
  | succ n ih =>
    obtain ⟨hvx, hwz, hwd⟩ := ih
    have hr : (physTicks c4Store (fun _ => 0) 0 n).robotType = RobotType.rover := by
      rw [physTicks_robotType]
      rfl
    have hpwx : postWatchdogVx (physTicks c4Store (fun _ => 0) 0 n) 0 = 1 := by
      unfold postWatchdogVx
      rw [if_neg hwd, hvx]
    have hpwz : postWatchdogWz (physTicks c4Store (fun _ => 0) 0 n) 0 = 0 := by
      unfold postWatchdogWz
      rw [if_neg hwd, hwz]
    have hfr : postWatchdogVx (physTicks c4Store (fun _ => 0) 0 n) 0 ≠ 0 ∨
        postWatchdogWz (physTicks c4Store (fun _ => 0) 0 n) 0 ≠ 0 := by
      rw [hpwx]
      exact Or.inl one_ne_zero
    refine ⟨?_, ?_, ?_⟩
    · rw [physTicks, tick_vx _ _ _ hr]
      unfold postFrictionVx
      rw [if_pos hfr, hpwx, hfact, one_mul]
      unfold snapSmall
      norm_num
    · rw [physTicks, tick_wz _ _ _ hr]
      unfold postFrictionWz
      rw [if_pos hfr, hpwz, hfact, zero_mul]
      exact snapSmall_zero
    · rw [physTicks, tick_lct_of_fric _ _ _ hr hfr]
      intro hcontra
      exact hcontra.1 rfl

/-! ### Claim C5: counterexample, amended theorem, witness -/

/-- **C5 counterexample.** As stated the claim fails: (i) at Δt = 0 the decay
factor is 1 and a coasting rover's velocity never becomes zero in any bounded
number of ticks; (ii) on a tick where the watchdog fires, the velocity is
forced to 0 instead of being multiplied by `0.95^(Δt·60)` and snapped. -/
theorem friction_claim_counterexample :
    (¬ ∃ N : ℕ, ∀ n, N ≤ n →
        (physTicks c4Store (fun _ => 0) 0 n).vx = 0 ∧
        (physTicks c4Store (fun _ => 0) 0 n).wz = 0) ∧
    (updateRoverPhysics c5WdStore 700 0).vx ≠
      snapSmall (c5WdStore.vx * frictionFactor 0) := by
  constructor
  · rintro ⟨N, hN⟩
    have h := (hN N le_rfl).1
    rw [(c5_orbit_const N).1] at h
    exact one_ne_zero h
  · have hw : watchdogExpired c5WdStore.lastCommandTime 700 := ⟨by norm_num, by norm_num⟩
    have hvx : (updateRoverPhysics c5WdStore 700 0).vx = 0 := by
      rw [tick_vx _ _ _ rfl]
      unfold postFrictionVx postWatchdogVx postWatchdogWz
      simp only [if_pos hw]
      norm_num
    rw [hvx]
    have hfact : frictionFactor 0 = 1 := by
      unfold frictionFactor
      rw [zero_mul, Real.rpow_zero]
    rw [hfact, mul_one]
    show (0 : ℝ) ≠ snapSmall 1
    unfold snapSmall
    norm_num

/-- **C5 (amended).** On a rover tick: (i) when the watchdog has not expired,
each velocity component is multiplied by `0.95^(Δt·60)` and snapped to zero
below 0.01; (ii) for Δt ≥ 0 the magnitude of each component never increases
(the watchdog zeroes it outright); (iii) for Δt > 0 the velocity becomes
exactly (0, 0) within a bounded number of ticks and stays there. -/
theorem friction_decay_amended :
    (∀ (s : RoverStore) (now dt : ℝ), s.robotType = RobotType.rover →
      ¬ watchdogExpired s.lastCommandTime now →
      (updateRoverPhysics s now dt).vx = snapSmall (s.vx * frictionFactor dt) ∧
      (updateRoverPhysics s now dt).wz = snapSmall (s.wz * frictionFactor dt)) ∧
    (∀ (s : RoverStore) (now dt : ℝ), s.robotType = RobotType.rover → 0 ≤ dt →
      |(updateRoverPhysics s now dt).vx| ≤ |s.vx| ∧
      |(updateRoverPhysics s now dt).wz| ≤ |s.wz|) ∧
    (∀ (s0 : RoverStore) (ns : ℕ → ℝ) (dt : ℝ), s0.robotType = RobotType.rover → 0 < dt →
      ∃ N, ∀ n, N ≤ n →
        (physTicks s0 ns dt n).vx = 0 ∧ (physTicks s0 ns dt n).wz = 0) := by
  refine ⟨?_, ?_, fun s0 ns dt hr hdt => physTicks_zero_after s0 ns dt hr hdt⟩
  · intro s now dt hr hw
    rw [tick_vx _ _ _ hr, tick_wz _ _ _ hr]
    unfold postFrictionVx postFrictionWz postWatchdogVx postWatchdogWz
    simp only [if_neg hw]
    by_cases hfr : s.vx ≠ 0 ∨ s.wz ≠ 0
    · rw [if_pos hfr, if_pos hfr]
      exact ⟨rfl, rfl⟩
    · rw [if_neg hfr, if_neg hfr]
      simp only [not_or, not_not] at hfr
      rw [hfr.1, hfr.2, zero_mul, snapSmall_zero]
      exact ⟨rfl, rfl⟩
  · intro s now dt hr hdt
    rw [tick_vx _ _ _ hr, tick_wz _ _ _ hr]
    constructor
    · refine le_trans (postFrictionVx_abs_le _ _ _) ?_
      exact mul_le_of_le_one_left (abs_nonneg _) (frictionFactor_le_one hdt)
    · refine le_trans (postFrictionWz_abs_le _ _ _) ?_
      exact mul_le_of_le_one_left (abs_nonneg _) (frictionFactor_le_one hdt)

/-- Witness for the amended C5, instantiating all three parts at a coasting
rover with Δt = 1. -/
theorem friction_decay_amended_witness :
    ((updateRoverPhysics c4Store 0 1).vx = snapSmall (c4Store.vx * frictionFactor 1) ∧
      (updateRoverPhysics c4Store 0 1).wz = snapSmall (c4Store.wz * frictionFactor 1)) ∧
    (|(updateRoverPhysics c4Store 0 1).vx| ≤ |c4Store.vx| ∧
      |(updateRoverPhysics c4Store 0 1).wz| ≤ |c4Store.wz|) ∧
    (∃ N, ∀ n, N ≤ n → (physTicks c4Store (fun _ => 0) 1 n).vx = 0 ∧
      (physTicks c4Store (fun _ => 0) 1 n).wz = 0) :=
  ⟨friction_decay_amended.1 c4Store 0 1 rfl (fun h => h),
   friction_decay_amended.2.1 c4Store 0 1 rfl (by norm_num),
   friction_decay_amended.2.2 c4Store (fun _ => 0) 1 rfl (by norm_num)⟩

/-! ### Claim C6: pose integration -/

/-- **C6 counterexample.** The claim's position formula uses the *updated*
heading `h' = h + wz·Δt`; the code destructures `rotation` before updating it
and integrates position with the *old* heading. At heading 0 with angular
velocity π/2 the two disagree: the code leaves x unchanged while the claimed
formula moves it. -/
theorem pose_claim_counterexample :
    (updateRoverPhysics c6Store 0 1).posX ≠
      c6Store.posX + (updateRoverPhysics c6Store 0 1).vx *
        Real.sin (c6Store.rotation + (updateRoverPhysics c6Store 0 1).wz * 1) * 1 := by
  have hw : ¬ watchdogExpired c6Store.lastCommandTime 0 := fun h => h
  have hfact : frictionFactor 1 = (0.95 : ℝ) ^ (60 : ℕ) := by
    unfold frictionFactor
    rw [show ((1 : ℝ) * 60) = ((60 : ℕ) : ℝ) by norm_num, Real.rpow_natCast]
  have hc0 : (0 : ℝ) < (0.95 : ℝ) ^ (60 : ℕ) := by positivity
  have hc1 : (0.95 : ℝ) ^ (60 : ℕ) < 1 := by
    exact pow_lt_one₀ (by norm_num) (by norm_num) (by norm_num)
  have hclb : (0.01 : ℝ) ≤ (0.95 : ℝ) ^ (60 : ℕ) := by norm_num
  have hpi2 : (1 : ℝ) < Real.pi / 2 := by
    nlinarith [Real.pi_gt_three]
  have hpwx : postWatchdogVx c6Store 0 = 1 := by
    unfold postWatchdogVx
    rw [if_neg hw]
    exact rfl
  have hpwz : postWatchdogWz c6Store 0 = Real.pi / 2 := by
    unfold postWatchdogWz
    rw [if_neg hw]
    exact rfl
  have hfr : postWatchdogVx c6Store 0 ≠ 0 ∨ postWatchdogWz c6Store 0 ≠ 0 := by
    rw [hpwx]
    exact Or.inl one_ne_zero
  have hvx : (updateRoverPhysics c6Store 0 1).vx = (0.95 : ℝ) ^ (60 : ℕ) := by
    rw [tick_vx _ _ _ rfl]
    unfold postFrictionVx
    rw [if_pos hfr, hpwx, hfact, one_mul]
    unfold snapSmall
    rw [if_neg (by rw [abs_of_pos hc0]; linarith)]
  have hwzval : (updateRoverPhysics c6Store 0 1).wz = Real.pi / 2 * (0.95 : ℝ) ^ (60 : ℕ) := by
    rw [tick_wz _ _ _ rfl]
    unfold postFrictionWz
    rw [if_pos hfr, hpwz, hfact]
    unfold snapSmall
    rw [if_neg ?_]
    rw [abs_of_pos (by positivity)]
    nlinarith
  have hpos : (updateRoverPhysics c6Store 0 1).posX = 0 := by
    rw [tick_posX _ _ _ rfl]
    show (0 : ℝ) + postFrictionVx c6Store 0 1 * Real.sin 0 * 1 = 0
    rw [Real.sin_zero]
    ring
  rw [hpos, hvx, hwzval]
  show (0 : ℝ) ≠ 0 + (0.95 : ℝ) ^ (60 : ℕ) *
    Real.sin (0 + Real.pi / 2 * (0.95 : ℝ) ^ (60 : ℕ) * 1) * 1
  have hargpos : (0 : ℝ) < Real.pi / 2 * (0.95 : ℝ) ^ (60 : ℕ) := by positivity
  have harglt : Real.pi / 2 * (0.95 : ℝ) ^ (60 : ℕ) < Real.pi := by
    nlinarith [Real.pi_pos]
  have hsin : (0 : ℝ) < Real.sin (0 + Real.pi / 2 * (0.95 : ℝ) ^ (60 : ℕ) * 1) := by
    rw [zero_add, mul_one]
    exact Real.sin_pos_of_pos_of_lt_pi hargpos harglt
  have : (0 : ℝ) < 0 + (0.95 : ℝ) ^ (60 : ℕ) *
      Real.sin (0 + Real.pi / 2 * (0.95 : ℝ) ^ (60 : ℕ) * 1) * 1 := by
    nlinarith
  exact ne_of_lt this

/-- **C6 (amended).** The tick sets the heading to `h' = h + wz·Δt` with the
post-friction `wz`, but integrates position with the *pre-tick* heading `h`:
`x' = x + vx·sin(h)·Δt`, `z' = z + vx·cos(h)·Δt`, the height unchanged. -/
theorem pose_integration_uses_old_heading (s : RoverStore) (now dt : ℝ)
    (hr : s.robotType = RobotType.rover) :
    (updateRoverPhysics s now dt).rotation =
      s.rotation + (updateRoverPhysics s now dt).wz * dt ∧
    (updateRoverPhysics s now dt).posX =
      s.posX + (updateRoverPhysics s now dt).vx * Real.sin s.rotation * dt ∧
    (updateRoverPhysics s now dt).posY = s.posY ∧
    (updateRoverPhysics s now dt).posZ =
      s.posZ + (updateRoverPhysics s now dt).vx * Real.cos s.rotation * dt := by
  rw [tick_vx _ _ _ hr, tick_wz _ _ _ hr]
  exact ⟨tick_rotation s now dt hr, tick_posX s now dt hr, tick_posY s now dt,
    tick_posZ s now dt hr⟩

/-- Witness for the amended C6 at a concrete rover state. -/
theorem pose_integration_uses_old_heading_witness :
    (updateRoverPhysics c3Store 0 1).rotation =
      c3Store.rotation + (updateRoverPhysics c3Store 0 1).wz * 1 ∧
    (updateRoverPhysics c3Store 0 1).posX =
      c3Store.posX + (updateRoverPhysics c3Store 0 1).vx * Real.sin c3Store.rotation * 1 ∧
    (updateRoverPhysics c3Store 0 1).posY = c3Store.posY ∧
    (updateRoverPhysics c3Store 0 1).posZ =
      c3Store.posZ + (updateRoverPhysics c3Store 0 1).vx * Real.cos c3Store.rotation * 1 :=
  pose_integration_uses_old_heading c3Store 0 1 rfl

/-! ### Claim C7: occupied cells are sticky -/

theorem set_one_sticky {m : List ℕ} {i idx : ℕ} (hocc : m[idx]? = some 2)
    (hne : m[i]? ≠ some 2) : (m.set i 1)[idx]? = some 2 := by
  by_cases hi : i = idx
  · subst hi
    exact absurd hocc hne
  · rw [List.getElem?_set_ne hi]
    exact hocc

theorem set_two_sticky {m : List ℕ} {i idx : ℕ} (hocc : m[idx]? = some 2) :
    (m.set i 2)[idx]? = some 2 := by
  by_cases hi : i = idx
  · rw [hi]
    have hlt : idx < m.length := (List.getElem?_eq_some_iff.mp hocc).1
    rw [List.getElem?_set_self hlt]
  · rw [List.getElem?_set_ne hi]
    exact hocc

theorem markFreeStep_length (gridSize : ℕ) (cellSize robotX robotZ angle : ℝ)
    (m : List ℕ) (st : ℕ) :
    (markFreeStep gridSize cellSize robotX robotZ angle m st).length = m.length := by
  simp only [markFreeStep]
  split_ifs <;> simp

theorem markFreeStep_sticky (gridSize : ℕ) (cellSize robotX robotZ angle : ℝ)
    (m : List ℕ) (st idx : ℕ) (hocc : m[idx]? = some 2) :
    (markFreeStep gridSize cellSize robotX robotZ angle m st)[idx]? = some 2 := by
  simp only [markFreeStep]
  split_ifs with h1 h2
  · exact set_one_sticky hocc h2
  · exact hocc
  · exact hocc

theorem foldl_markFreeStep_sticky (gridSize : ℕ) (cellSize robotX robotZ angle : ℝ)
    (steps : List ℕ) (m : List ℕ) (idx : ℕ) (hocc : m[idx]? = some 2) :
    (steps.foldl (markFreeStep gridSize cellSize robotX robotZ angle) m)[idx]? = some 2 := by
  induction steps generalizing m with
  | nil => exact hocc
  | cons st rest ih =>
    exact ih _ (markFreeStep_sticky gridSize cellSize robotX robotZ angle m st idx hocc)

theorem foldl_markFreeStep_length (gridSize : ℕ) (cellSize robotX robotZ angle : ℝ)
    (steps : List ℕ) (m : List ℕ) :
    (steps.foldl (markFreeStep gridSize cellSize robotX robotZ angle) m).length = m.length := by
  induction steps generalizing m with
  | nil => rfl
  | cons st rest ih =>
    rw [List.foldl_cons, ih, markFreeStep_length]

theorem markRay_sticky (gridSize : ℕ) (cellSize robotX robotZ : ℝ)
    (m : List ℕ) (p : ScanPoint) (idx : ℕ) (hocc : m[idx]? = some 2) :
    (markRay gridSize cellSize robotX robotZ m p)[idx]? = some 2 := by
  have hfree := foldl_markFreeStep_sticky gridSize cellSize robotX robotZ p.angle
    (List.range (⌊p.distance / cellSize⌋).toNat) m idx hocc
  simp only [markRay]
  split_ifs with h1 h2
  · exact set_two_sticky hfree
  · exact hfree
  · exact hfree

theorem markRay_length (gridSize : ℕ) (cellSize robotX robotZ : ℝ)
    (m : List ℕ) (p : ScanPoint) :
    (markRay gridSize cellSize robotX robotZ m p).length = m.length := by
  simp only [markRay]
  split_ifs <;>
    simp [foldl_markFreeStep_length]

theorem updateOccupancyMap_sticky (lidarScan : List ScanPoint) (robotX robotZ : ℝ)
    (mapSize resolution : ℕ) (l : List ℕ) (idx : ℕ)
    (hlen : l.length = mapSize * resolution * (mapSize * resolution))
    (hocc : l[idx]? = some 2) :
    (updateOccupancyMap (some l) lidarScan robotX robotZ mapSize resolution)[idx]? = some 2 ∧
    (updateOccupancyMap (some l) lidarScan robotX robotZ mapSize resolution).length = l.length := by
  simp only [updateOccupancyMap]
  rw [if_neg (by rw [hlen]; exact fun h => h rfl)]
  induction lidarScan generalizing l with
  | nil => exact ⟨hocc, rfl⟩
  | cons p rest ih =>
    rw [List.foldl_cons]
    have h1 := markRay_sticky (mapSize * resolution)
      ((mapSize : ℝ) / ((mapSize * resolution : ℕ) : ℝ)) robotX robotZ l p idx hocc
    have h2 := markRay_length (mapSize * resolution)
      ((mapSize : ℝ) / ((mapSize * resolution : ℕ) : ℝ)) robotX robotZ l p
    have := ih (markRay (mapSize * resolution)
      ((mapSize : ℝ) / ((mapSize * resolution : ℕ) : ℝ)) robotX robotZ l p)
      (by rw [h2, hlen]) h1
    exact ⟨this.1, by rw [this.2, h2]⟩

/-- **C7.** Under fusion updates at a fixed map size and resolution (so the
lazily allocated grid is never re-allocated), a cell that is Occupied stays
Occupied: the free-marking pass writes only cells whose value is not 2 and
the terminal-cell pass only writes 2. -/
theorem occupied_cells_sticky (mapSize resolution : ℕ) (l : List ℕ) (idx : ℕ)
    (updates : List (List ScanPoint × ℝ × ℝ))
    (hlen : l.length = mapSize * resolution * (mapSize * resolution))
    (hocc : l[idx]? = some 2) :
    (fuseScans mapSize resolution l updates)[idx]? = some 2 := by
  unfold fuseScans
  induction updates generalizing l with
  | nil => exact hocc
  | cons u rest ih =>
    rw [List.foldl_cons]
    have h := updateOccupancyMap_sticky u.1 u.2.1 u.2.2 mapSize resolution l idx hlen hocc
    exact ih _ (by rw [h.2, hlen]) h.1

/-- Witness for C7: a one-cell occupied grid survives a fusion update. -/
theorem occupied_cells_sticky_witness :
    ([2] : List ℕ).length = 1 * 1 * (1 * 1) ∧ ([2] : List ℕ)[0]? = some 2 ∧
      (fuseScans 1 1 [2] [([⟨0, 1⟩], 0, 0)])[0]? = some 2 :=
  ⟨rfl, rfl, occupied_cells_sticky 1 1 [2] 0 [([⟨0, 1⟩], 0, 0)] rfl rfl⟩

/-! ### Kinematics: evaluation lemmas for the JS-number operations -/

@[simp] theorem jadd_some (a b : ℝ) : jadd (some a) (some b) = some (a + b) := rfl

@[simp] theorem jadd_none_left (b : JReal) : jadd none b = none := rfl

@[simp] theorem jadd_none_right (a : JReal) : jadd a none = none := by cases a <;> rfl

@[simp] theorem jsub_some (a b : ℝ) : jsub (some a) (some b) = some (a - b) := rfl

@[simp] theorem jsub_none_left (b : JReal) : jsub none b = none := rfl

@[simp] theorem jsub_none_right (a : JReal) : jsub a none = none := by cases a <;> rfl

@[simp] theorem jmul_some (a b : ℝ) : jmul (some a) (some b) = some (a * b) := rfl

@[simp] theorem jmul_none_left (b : JReal) : jmul none b = none := rfl

@[simp] theorem jmul_none_right (a : JReal) : jmul a none = none := by cases a <;> rfl

@[simp] theorem jhalf_some (a : ℝ) : jhalf (some a) = some (a / 2) := rfl

@[simp] theorem jhalf_none : jhalf none = none := rfl

@[simp] theorem jneg_some (a : ℝ) : jneg (some a) = some (-a) := rfl

@[simp] theorem jneg_none : jneg none = none := rfl

@[simp] theorem jsin_some (a : ℝ) : jsin (some a) = some (Real.sin a) := rfl

@[simp] theorem jsin_none : jsin none = none := rfl

@[simp] theorem jcos_some (a : ℝ) : jcos (some a) = some (Real.cos a) := rfl

@[simp] theorem jcos_none : jcos none = none := rfl

@[simp] theorem jatan2_some (y x : ℝ) :
    jatan2 (some y) (some x) = some (Complex.arg ⟨x, y⟩) := rfl

@[simp] theorem jmin_some (a b : ℝ) : jmin (some a) (some b) = some (min a b) := rfl

@[simp] theorem jmin_none_right (a : JReal) : jmin a none = none := by cases a <;> rfl

@[simp] theorem jmax_some (a b : ℝ) : jmax (some a) (some b) = some (max a b) := rfl

@[simp] theorem jmax_none_right (a : JReal) : jmax a none = none := by cases a <;> rfl

@[simp] theorem jsqrt_none : jsqrt none = none := rfl

theorem jsqrt_some_of_nonneg {a : ℝ} (h : 0 ≤ a) : jsqrt (some a) = some (Real.sqrt a) := by
  show (if a < 0 then none else some (Real.sqrt a)) = some (Real.sqrt a)
  rw [if_neg (not_lt.mpr h)]

@[simp] theorem jacos_none : jacos none = none := rfl

theorem jacos_some_of_le {a : ℝ} (h : |a| ≤ 1) : jacos (some a) = some (Real.arccos a) := by
  show (if |a| ≤ 1 then some (Real.arccos a) else none) = some (Real.arccos a)
  rw [if_pos h]

theorem jacos_some_of_gt {a : ℝ} (h : 1 < |a|) : jacos (some a) = none := by
  show (if |a| ≤ 1 then some (Real.arccos a) else none) = none
  rw [if_neg (not_le.mpr h)]

theorem jdiv_some_of_ne {a b : ℝ} (h : b ≠ 0) : jdiv (some a) (some b) = some (a / b) := by
  show (if b = 0 then none else some (a / b)) = some (a / b)
  rw [if_neg h]

@[simp] theorem jdiv_none_left (b : JReal) : jdiv none b = none := rfl

@[simp] theorem jdiv_none_right (a : JReal) : jdiv a none = none := by cases a <;> rfl

theorem jltR_some {x t : ℝ} : jltR (some x) t ↔ x < t := by
  constructor
  · rintro ⟨y, hy, hlt⟩
    injection hy with hy
    rwa [hy]
  · intro h
    exact ⟨x, rfl, h⟩

theorem not_jltR_none (t : ℝ) : ¬ jltR none t := by
  rintro ⟨y, hy, -⟩
  cases hy

theorem jgtR_some {x t : ℝ} : jgtR (some x) t ↔ t < x := by
  constructor
  · rintro ⟨y, hy, hlt⟩
    injection hy with hy
    rwa [hy]
  · intro h
    exact ⟨x, rfl, h⟩

@[simp] theorem angles_map_mk (f : JReal → JReal) (a0 a1 a2 a3 a4 : JReal) :
    Angles.map f ⟨a0, a1, a2, a3, a4⟩ = ⟨f a0, f a1, f a2, f a3, f a4⟩ := rfl

theorem complex_arg_zero_zero : Complex.arg ⟨0, 0⟩ = 0 := by
  rw [show (⟨0, 0⟩ : ℂ) = 0 from Complex.ext (by simp) (by simp)]
  exact Complex.arg_zero

theorem complex_arg_pos_real {x : ℝ} (h : 0 ≤ x) : Complex.arg ⟨x, 0⟩ = 0 := by
  rw [show (⟨x, 0⟩ : ℂ) = ((x : ℝ) : ℂ) from Complex.ext (by simp) (by simp)]
  exact Complex.arg_ofReal_of_nonneg h

/-! ### Forward/inverse kinematics evaluation at the all-zero configuration -/

/-- Forward kinematics of the all-zero configuration: straight up at height
`0.3/2 + 0.8 + 0.7 + 0.3 + 0.15 = 2.1` (the halved-link chain of the source). -/
theorem fk_zero : forwardKinematics anglesZero = ⟨some 0, some 2.1, some 0⟩ := by
  simp only [forwardKinematics, anglesZero, angles_map_mk, degToRadJ, jmul_some, zero_mul,
    jcos_some, Real.cos_zero, jsin_some, Real.sin_zero, jhalf_some, jadd_some, jsub_some]
  norm_num [armL0, armL1, armL2, armL3, armL4]

/-- A `NaN` shoulder angle poisons the whole forward-kinematics output. -/
theorem fk_nan {v : Angles} (h : v.a1 = none) :
    forwardKinematics v = ⟨none, none, none⟩ := by
  obtain ⟨a0, a1, a2, a3, a4⟩ := v
  subst h
  simp [forwardKinematics, degToRadJ]

/-- One CCD update at the in-reach target (0, 1.95, 0): the elbow cosine is
clamped to −1 (elbow = π), but the `beta` acos argument is 2.8725/2.64 > 1 and
is *not* clamped, so the shoulder and wrist angles come out `NaN`. -/
theorem ik_step_eval (st : Angles × Angles) (h4 : st.2.a4 = some 0) :
    ikStep ⟨some 0, some 1.95, some 0⟩ st =
      (⟨some 0, none, some Real.pi, none, some 0⟩,
        Angles.map radToDegJ ⟨some 0, none, some Real.pi, none, some 0⟩) := by
  have harg : jatan2 (some (0:ℝ)) (some (0:ℝ)) = some 0 := by
    rw [jatan2_some, complex_arg_zero_zero]
  simp only [ikStep, h4, harg, jneg_some, neg_zero, jcos_some, Real.cos_zero, jsin_some,
    Real.sin_zero, jmul_some, zero_mul, mul_zero, mul_one, jsub_some, jadd_some, add_zero,
    zero_add, armL0, armL1, armL2, armL3, armL4]
  have h1 : jsqrt (some ((1.95 - 0.3 / 2) * ((1.95:ℝ) - 0.3 / 2))) = some 1.8 := by
    rw [jsqrt_some_of_nonneg (by norm_num),
      show ((1.95 - 0.3 / 2) * ((1.95:ℝ) - 0.3 / 2)) = 1.8 ^ 2 by norm_num,
      Real.sqrt_sq (by norm_num)]
  have h2 : jatan2 (some (0:ℝ)) (some ((1.95:ℝ) - 0.3 / 2)) = some 0 := by
    rw [jatan2_some, complex_arg_pos_real (by norm_num)]
  rw [h1, h2]
  norm_num
  have hbeta : jacos (jdiv (some ((1149:ℝ)/400)) (some ((66:ℝ)/25))) = none := by
    rw [jdiv_some_of_ne (by norm_num)]
    apply jacos_some_of_gt
    rw [abs_of_pos (by norm_num)]
    norm_num
  have helbow : jacos (jmax (some (-1:ℝ))
      (jmin (some (1:ℝ)) (jdiv (some (-((637:ℝ)/400))) (some ((28:ℝ)/25))))) = some Real.pi := by
    rw [jdiv_some_of_ne (by norm_num), jmin_some, jmax_some,
      min_eq_right (by norm_num : -((637:ℝ)/400) / ((28:ℝ)/25) ≤ 1),
      max_eq_left (by norm_num : -((637:ℝ)/400) / ((28:ℝ)/25) ≤ -1),
      jacos_some_of_le (by norm_num), Real.arccos_neg_one]
  rw [hbeta, helbow]
  simp [degToRadJ, radToDegJ]

/-- After the first CCD update the state is a fixpoint: the convergence check
sees a `NaN` error (never `< tolerance`) and the update recomputes the same
angles from the unchanged target. -/
theorem ik_iter_fix (n : ℕ) :
    ikIter ⟨some 0, some 1.95, some 0⟩ 0.01 n
      (⟨some 0, none, some Real.pi, none, some 0⟩,
        Angles.map radToDegJ ⟨some 0, none, some Real.pi, none, some 0⟩) =
      (⟨some 0, none, some Real.pi, none, some 0⟩,
        Angles.map radToDegJ ⟨some 0, none, some Real.pi, none, some 0⟩) := by
  induction n with
  | zero => rfl
  | succ n ih =>
    have hfkn : forwardKinematics
        ((Angles.map radToDegJ ⟨some 0, none, some Real.pi, none, some 0⟩).map radToDegJ) =
        ⟨none, none, none⟩ :=
      fk_nan (by simp [radToDegJ])
    have hdist : jdistTo (⟨none, none, none⟩ : JVec) ⟨some 0, some 1.95, some 0⟩ = none := by
      simp [jdistTo]
    simp only [ikIter]
    rw [hfkn, hdist, if_neg (not_jltR_none 0.01), ik_step_eval _ (by simp [radToDegJ])]
    exact ih

theorem ik_iter_step (n : ℕ) (st : Angles × Angles)
    (hnb : ¬ jltR (jdistTo (forwardKinematics (st.2.map radToDegJ))
      ⟨some 0, some 1.95, some 0⟩) 0.01) :
    ikIter ⟨some 0, some 1.95, some 0⟩ 0.01 (n + 1) st =
      ikIter ⟨some 0, some 1.95, some 0⟩ 0.01 n (ikStep ⟨some 0, some 1.95, some 0⟩ st) := by
  simp only [ikIter]
  rw [if_neg hnb]

/-- Full evaluation of `inverseKinematics((0, 2.1, 0), zeros, 50, 0.01)`: the
out-of-reach target is scaled to (0, 1.95, 0), the solver produces `NaN`
shoulder and wrist angles, and the final clamp maps them to `NaN` again
(`Math.max(lo, Math.min(hi, NaN)) = NaN`). -/
theorem ik_eval :
    inverseKinematics ⟨some 0, some 2.1, some 0⟩ anglesZero 50 0.01 =
      ⟨some 0, none, some 150, none, some 0⟩ := by
  have hlen : jlen ⟨some 0, some (2.1 : ℝ), some 0⟩ = some 2.1 := by
    simp only [jlen, jmul_some, jadd_some]
    norm_num
    rw [jsqrt_some_of_nonneg (by norm_num), show ((441 : ℝ) / 100) = 2.1 ^ 2 by norm_num,
      Real.sqrt_sq (by norm_num)]
    norm_num
  have hT2 : jscale ⟨some 0, some (2.1 : ℝ), some 0⟩
      (jdiv (some (armL1 + armL2 + armL3 + armL4)) (some 2.1)) =
      ⟨some 0, some 1.95, some 0⟩ := by
    rw [jdiv_some_of_ne (by norm_num)]
    simp only [jscale, jmul_some, JVec.mk.injEq, Option.some.injEq]
    norm_num [armL1, armL2, armL3, armL4]
  have hmapz : Angles.map radToDegJ anglesZero = anglesZero := by
    simp [anglesZero, radToDegJ]
  have hdist1 : jdistTo ⟨some 0, some (2.1 : ℝ), some 0⟩ ⟨some 0, some 1.95, some 0⟩ =
      some (3 / 20) := by
    simp only [jdistTo, jsub_some, jmul_some, jadd_some]
    norm_num
    rw [jsqrt_some_of_nonneg (by norm_num), show ((9 : ℝ) / 400) = (3 / 20) ^ 2 by norm_num,
      Real.sqrt_sq (by norm_num)]
  simp only [inverseKinematics]
  rw [hlen, if_pos (jgtR_some.mpr (by norm_num [armL1, armL2, armL3, armL4])), hT2]
  rw [show (50 : ℕ) = 49 + 1 from rfl]
  rw [ik_iter_step 49 _ (by
    show ¬ jltR (jdistTo (forwardKinematics (Angles.map radToDegJ anglesZero)) _) _
    rw [hmapz, fk_zero, hdist1, jltR_some]
    norm_num)]
  rw [ik_step_eval _ rfl, ik_iter_fix 49]
  simp only [radToDegJ, angles_map_mk, jmul_some, jmul_none_left, jclamp, jmin_some,
    jmax_some, jmin_none_right, jmax_none_right, zero_mul]
  rw [show Real.pi * (180 / Real.pi) = 180 by field_simp]
  norm_num

/-! ### Claim C1 -/

/-- **C1 (code evaluated at the failing input).** At the in-workspace
configuration J = [0,0,0,0,0]: `forwardKinematics(J) = (0, 2.1, 0)`, the
solver returns `[0, NaN, 150, NaN, 0]` — the unclamped `beta` acos receives
2.8725/2.64 > 1 and yields `NaN` — and the recomposed end-effector distance to
the original position is `NaN`, not within 0.01 m. -/
theorem ik_roundtrip_nan_at_zero :
    forwardKinematics anglesZero = ⟨some 0, some 2.1, some 0⟩ ∧
    inverseKinematics (forwardKinematics anglesZero) anglesZero 50 0.01 =
      ⟨some 0, none, some 150, none, some 0⟩ ∧
    jdistTo
      (forwardKinematics (inverseKinematics (forwardKinematics anglesZero) anglesZero 50 0.01))
      (forwardKinematics anglesZero) = none := by
  refine ⟨fk_zero, ?_, ?_⟩
  · rw [fk_zero]
    exact ik_eval
  · rw [fk_zero, ik_eval, fk_nan rfl]
    simp [jdistTo]

/-! ### Claim C2 -/

/-- **C2 counterexample.** For the target (0, 2.1, 0) from the all-zero start,
the returned shoulder angle is `NaN` (`none`): it is not a real number in
[-90, 90], because the `beta` acos argument is not clamped and
`clamp(NaN) = NaN`. -/
theorem ik_clamp_nan_counterexample :
    (inverseKinematics ⟨some 0, some 2.1, some 0⟩ anglesZero 50 0.01).a1 = none ∧
    ¬ ∃ v : ℝ, (inverseKinematics ⟨some 0, some 2.1, some 0⟩ anglesZero 50 0.01).a1 = some v ∧
      -90 ≤ v ∧ v ≤ 90 := by
  rw [ik_eval]
  exact ⟨rfl, by rintro ⟨v, hv, -⟩; cases hv⟩

theorem jclamp_none_or_mem (v : JReal) {lo hi : ℝ} (h : lo ≤ hi) :
    jclamp v lo hi = none ∨ ∃ x, jclamp v lo hi = some x ∧ lo ≤ x ∧ x ≤ hi := by
  cases v with
  | none => exact Or.inl rfl
  | some t =>
    exact Or.inr ⟨max lo (min hi t), rfl, le_max_left _ _, max_le h (min_le_left _ _)⟩

/-- **C2 (amended).** For every target and starting configuration the solver
returns without raising, and each returned angle is either `NaN` or lies in
its per-joint range (base/gripper [-180,180], shoulder/wrist [-90,90], elbow
[-150,150]): the final per-joint clamp guarantees the range whenever the
solver's output is a real number, but the unclamped shoulder `beta` acos can
make the shoulder and wrist `NaN`. -/
theorem ik_output_clamped_or_nan (targetPos0 : JVec) (currentAngles : Angles)
    (maxIterations : ℕ) (tolerance : ℝ) :
    ((inverseKinematics targetPos0 currentAngles maxIterations tolerance).a0 = none ∨
      ∃ x, (inverseKinematics targetPos0 currentAngles maxIterations tolerance).a0 = some x ∧
        -180 ≤ x ∧ x ≤ 180) ∧
    ((inverseKinematics targetPos0 currentAngles maxIterations tolerance).a1 = none ∨
      ∃ x, (inverseKinematics targetPos0 currentAngles maxIterations tolerance).a1 = some x ∧
        -90 ≤ x ∧ x ≤ 90) ∧
    ((inverseKinematics targetPos0 currentAngles maxIterations tolerance).a2 = none ∨
      ∃ x, (inverseKinematics targetPos0 currentAngles maxIterations tolerance).a2 = some x ∧
        -150 ≤ x ∧ x ≤ 150) ∧
    ((inverseKinematics targetPos0 currentAngles maxIterations tolerance).a3 = none ∨
      ∃ x, (inverseKinematics targetPos0 currentAngles maxIterations tolerance).a3 = some x ∧
        -90 ≤ x ∧ x ≤ 90) ∧
    ((inverseKinematics targetPos0 currentAngles maxIterations tolerance).a4 = none ∨
      ∃ x, (inverseKinematics targetPos0 currentAngles maxIterations tolerance).a4 = some x ∧
        -180 ≤ x ∧ x ≤ 180) := by
  simp only [inverseKinematics]
  exact ⟨jclamp_none_or_mem _ (by norm_num), jclamp_none_or_mem _ (by norm_num),
    jclamp_none_or_mem _ (by norm_num), jclamp_none_or_mem _ (by norm_num),
    jclamp_none_or_mem _ (by norm_num)⟩
